import Mathlib

/-!
Verification of the go-uploader chunked file-upload service.

This file gives a shallow embedding, in Lean 4, of the core data model and
operations of the repository: the MD5 digest (used by `SanitizeFileID` and the
integrity checks), the task store (`src/utils/storage.go`), the atomic writer
and lock files (`src/utils/atomic.go`), the retry policy (`src/utils/retry.go`),
the chunk-upload handler (`src/handler/auth.go`) and the merge handler
(`src/handler/merge.go`).

Modelling conventions:
* Go byte strings are modelled as `List Nat` (each entry < 256); Go `string`
  values as Lean `String` (the identifiers and payloads used by all concrete
  witnesses are ASCII, where Go's byte indexing and Lean's character indexing
  agree).
* The filesystem is an association list from paths to file contents; `os`
  primitives (`WriteFile`, `Remove`, `RemoveAll`, `Rename`, exclusive-create)
  become pure list operations.  `filepath.Join` is modelled as concatenation
  with `"/"`, which agrees with Go for the clean, relative components the code
  joins.  Directory creation (`EnsureDirectory`) is a no-op since directories
  are implicit.
* Machine integers are `Nat` with explicit `% 2 ^ 32` (resp. `% 2 ^ 64`) where
  Go wraps; the retry policy's `float64` delay arithmetic is modelled over `ℚ`.
* I/O failure is modelled by explicit fault flags where a claim is about
  failure behaviour (the atomic writer); pure operations that cannot fail in
  the model (in-memory map reads, reads of files already checked present) are
  happy-path.
-/

set_option maxRecDepth 100000

deriving instance DecidableEq for Except

namespace GoUploader

/-! ## MD5 (crypto/md5), modelled bit-faithfully over `Nat` -/

/-- Reduce modulo 2^32 (Go `uint32` wrap-around). -/
def m32 (x : Nat) : Nat := x % 4294967296

/-- 32-bit bitwise complement of a value below 2^32. -/
def w32not (x : Nat) : Nat := 4294967295 - x

/-- 32-bit left rotation. -/
def rotl32 (x c : Nat) : Nat := m32 (x <<< c) ||| (x >>> (32 - c))

/-- The 64 MD5 sine-derived constants (RFC 1321 table T). -/
def MD5K : List Nat :=
  [0xd76aa478, 0xe8c7b756, 0x242070db, 0xc1bdceee,
   0xf57c0faf, 0x4787c62a, 0xa8304613, 0xfd469501,
   0x698098d8, 0x8b44f7af, 0xffff5bb1, 0x895cd7be,
   0x6b901122, 0xfd987193, 0xa679438e, 0x49b40821,
   0xf61e2562, 0xc040b340, 0x265e5a51, 0xe9b6c7aa,
   0xd62f105d, 0x02441453, 0xd8a1e681, 0xe7d3fbc8,
   0x21e1cde6, 0xc33707d6, 0xf4d50d87, 0x455a14ed,
   0xa9e3e905, 0xfcefa3f8, 0x676f02d9, 0x8d2a4c8a,
   0xfffa3942, 0x8771f681, 0x6d9d6122, 0xfde5380c,
   0xa4beea44, 0x4bdecfa9, 0xf6bb4b60, 0xbebfbc70,
   0x289b7ec6, 0xeaa127fa, 0xd4ef3085, 0x04881d05,
   0xd9d4d039, 0xe6db99e5, 0x1fa27cf8, 0xc4ac5665,
   0xf4292244, 0x432aff97, 0xab9423a7, 0xfc93a039,
   0x655b59c3, 0x8f0ccc92, 0xffeff47d, 0x85845dd1,
   0x6fa87e4f, 0xfe2ce6e0, 0xa3014314, 0x4e0811a1,
   0xf7537e82, 0xbd3af235, 0x2ad7d2bb, 0xeb86d391]

/-- The MD5 per-round left-rotation amounts. -/
def MD5S : List Nat :=
  [7, 12, 17, 22, 7, 12, 17, 22, 7, 12, 17, 22, 7, 12, 17, 22,
   5, 9, 14, 20, 5, 9, 14, 20, 5, 9, 14, 20, 5, 9, 14, 20,
   4, 11, 16, 23, 4, 11, 16, 23, 4, 11, 16, 23, 4, 11, 16, 23,
   6, 10, 15, 21, 6, 10, 15, 21, 6, 10, 15, 21, 6, 10, 15, 21]

/-- The MD5 round function F/G/H/I selected by round index. -/
def md5F (i b c d : Nat) : Nat :=
  if i < 16 then (b &&& c) ||| (w32not b &&& d)
  else if i < 32 then (d &&& b) ||| (w32not d &&& c)
  else if i < 48 then b ^^^ c ^^^ d
  else c ^^^ (b ||| w32not d)

/-- The MD5 message-word index for round `i`. -/
def md5G (i : Nat) : Nat :=
  if i < 16 then i
  else if i < 32 then (5 * i + 1) % 16
  else if i < 48 then (3 * i + 5) % 16
  else (7 * i) % 16

/-- Running MD5 state: four 32-bit words. -/
structure MD5State where
  a : Nat
  b : Nat
  c : Nat
  d : Nat
  deriving DecidableEq, Repr

/-- MD5 initial state. -/
def md5Init : MD5State := ⟨0x67452301, 0xefcdab89, 0x98badcfe, 0x10325476⟩

/-- `count` little-endian bytes of `n`. -/
def leBytes : Nat → Nat → List Nat
  | _, 0 => []
  | n, k + 1 => n % 256 :: leBytes (n / 256) k

/-- Group a byte list into `k` little-endian 32-bit words. -/
def wordsOf : Nat → List Nat → List Nat
  | 0, _ => []
  | k + 1, l =>
      (l.getD 0 0 + 256 * l.getD 1 0 + 65536 * l.getD 2 0 + 16777216 * l.getD 3 0)
        :: wordsOf k (l.drop 4)

/-- One MD5 round step on state `st` with message words `m`. -/
def md5Step (m : List Nat) (st : MD5State) (i : Nat) : MD5State :=
  let sum := m32 (st.a + md5F i st.b st.c st.d + MD5K.getD i 0 + m.getD (md5G i) 0)
  ⟨st.d, m32 (st.b + rotl32 sum (MD5S.getD i 0)), st.b, st.c⟩

/-- Compress one 64-byte block into the running state. -/
def md5Compress (st : MD5State) (block : List Nat) : MD5State :=
  let m := wordsOf 16 block
  let r := (List.range 64).foldl (md5Step m) st
  ⟨m32 (st.a + r.a), m32 (st.b + r.b), m32 (st.c + r.c), m32 (st.d + r.d)⟩

/-- MD5 padding: `0x80`, zeros to 56 mod 64, then the bit length, little-endian. -/
def md5Pad (msg : List Nat) : List Nat :=
  msg ++ 128 :: List.replicate ((119 - msg.length % 64) % 64) 0
      ++ leBytes (msg.length * 8 % 18446744073709551616) 8

/-- Split into `k` blocks of 64 bytes. -/
def chunks64 : Nat → List Nat → List (List Nat)
  | 0, _ => []
  | k + 1, l => l.take 64 :: chunks64 k (l.drop 64)

/-- The 16-byte MD5 digest of a byte list. -/
def md5Bytes (msg : List Nat) : List Nat :=
  let padded := md5Pad msg
  let st := (chunks64 (padded.length / 64) padded).foldl md5Compress md5Init
  leBytes st.a 4 ++ leBytes st.b 4 ++ leBytes st.c 4 ++ leBytes st.d 4

/-- Lower-case hex digit for a value below 16. -/
def hexDigitChar (n : Nat) : Char :=
  if n < 10 then Char.ofNat (48 + n) else Char.ofNat (87 + n)

/-- Two lower-case hex digits of a byte. -/
def byteHexChars (b : Nat) : List Char := [hexDigitChar (b / 16), hexDigitChar (b % 16)]

/-- The 32 lower-case hex characters of an MD5 digest (`hex.EncodeToString`). -/
def md5HexChars (msg : List Nat) : List Char := (md5Bytes msg).flatMap byteHexChars

/-- The MD5 hex string of a byte list. -/
def md5Hex (msg : List Nat) : String := String.mk (md5HexChars msg)

/-- The bytes of an ASCII string. -/
def strBytes (s : String) : List Nat := s.toList.map Char.toNat

example : md5Hex [] = "d41d8cd98f00b204e9800998ecf8427e" := by decide
example : md5Hex (strBytes "abc") = "900150983cd24fb0d6963f7d28e17f72" := by decide

/-! ## Go string helpers (strings.ReplaceAll, the custom contains of retry.go) -/

/-- Fuel-driven worker for `goReplaceAll` (structural recursion on the fuel,
which starts at the length of `s`, so the fuel never runs out: each step
consumes at least one character of `s`). -/
def goReplaceAllFuel : Nat → List Char → List Char → List Char → List Char
  | 0, s, _, _ => s
  | _ + 1, s, [], _ => s
  | _ + 1, [], _, _ => []
  | f + 1, c :: rest, p :: ps, rep =>
      if (p :: ps).isPrefixOf (c :: rest) then
        rep ++ goReplaceAllFuel f ((c :: rest).drop (p :: ps).length) (p :: ps) rep
      else
        c :: goReplaceAllFuel f rest (p :: ps) rep

/-- `strings.ReplaceAll s pat rep`: non-overlapping, left to right.  The
`pat = []` case (Go would insert between characters) never arises here; it
returns `s` unchanged. -/
def goReplaceAll (s pat rep : List Char) : List Char :=
  goReplaceAllFuel s.length s pat rep

/-- `toLower` of retry.go: byte-wise ASCII lower-casing. -/
def goToLower (s : List Char) : List Char :=
  s.map fun c => if 65 ≤ c.toNat ∧ c.toNat ≤ 90 then Char.ofNat (c.toNat + 32) else c

/-- `containsIgnoreCase` of retry.go: lower-case both, then scan every start
position `i ≤ len str - len substr`. -/
def containsIgnoreCase (str substr : List Char) : Bool :=
  let s := goToLower str
  let t := goToLower substr
  (List.range (s.length - t.length + 1)).any fun i => (s.drop i).take t.length = t

/-- The custom `contains` of retry.go (note: an equal-length case-insensitive
match other than exact equality is NOT found, because of the strict
`len(str) > len(substr)` guard). -/
def goRetryContains (str substr : List Char) : Bool :=
  decide (substr.length ≤ str.length) &&
    (str = substr || (decide (substr.length < str.length) && containsIgnoreCase str substr))

/-! ## SanitizeFileID (src/utils/storage.go lines 17-35) -/

/-- The first 8 hex characters of the MD5 of an identifier (`hash[:8]`). -/
def md5Prefix8 (fileID : String) : List Char :=
  (md5HexChars (strBytes fileID)).take 8

/-- The character-level body of `SanitizeFileID`: replace `/`, `\` and `..`
by `_`, truncate the readable part to 50 bytes, append `_` and the 8-hex-char
MD5 prefix of the ORIGINAL identifier. -/
def sanitizeChars (fileID : List Char) : List Char :=
  let r1 := goReplaceAll fileID ['/'] ['_']
  let r2 := goReplaceAll r1 ['\\'] ['_']
  let r3 := goReplaceAll r2 ['.', '.'] ['_']
  let readable := if r3.length > 50 then r3.take 50 else r3
  readable ++ '_' :: (md5HexChars (fileID.map Char.toNat)).take 8

/-- `SanitizeFileID` of storage.go.  Faithful for ASCII identifiers, where
Go's byte indexing agrees with character indexing. -/
def SanitizeFileID (fileID : String) : String := String.mk (sanitizeChars fileID.toList)

example : SanitizeFileID "a/b" = "a_b_a7e86136" := by decide
example : SanitizeFileID "f1" = "f1_bd19836d" := by decide

/-! ## Generic association-list maps (Go `map` values and the filesystem;
insertion preserves the entry's position so that re-inserting an unchanged
value is the identity, matching in-place mutation) -/

/-- Map lookup. -/
def alLookup {α : Type} [DecidableEq α] {β : Type} : List (α × β) → α → Option β
  | [], _ => none
  | (k, v) :: rest, p => if k = p then some v else alLookup rest p

/-- Map insert-or-replace, keeping the entry's position. -/
def alInsert {α : Type} [DecidableEq α] {β : Type} : List (α × β) → α → β → List (α × β)
  | [], p, v => [(p, v)]
  | (k, w) :: rest, p, v => if k = p then (p, v) :: rest else (k, w) :: alInsert rest p v

/-- Map delete. -/
def alErase {α : Type} [DecidableEq α] {β : Type} (l : List (α × β)) (k : α) : List (α × β) :=
  l.filter fun e => e.1 ≠ k

/-! ## Filesystem model: association list of (path, content) -/

/-- A filesystem: a list of (path, file bytes).  Directories are implicit. -/
abbrev FS := List (String × List Nat)

/-- Read a file (`os.ReadFile` / `os.Stat` presence). -/
def fsLookup (fs : FS) (p : String) : Option (List Nat) := alLookup fs p

/-- Write a file (`os.WriteFile` / `os.Create`): replace in place or append. -/
def fsInsert (fs : FS) (p : String) (v : List Nat) : FS := alInsert fs p v

/-- Delete a file (`os.Remove`, ignoring its error). -/
def fsErase (fs : FS) (p : String) : FS := alErase fs p

/-- `os.RemoveAll dir`: delete `dir` and everything under it. -/
def fsRemoveAll (fs : FS) (dir : String) : FS :=
  fs.filter fun e => ¬ (e.1 = dir ∨ (dir ++ "/").isPrefixOf e.1)

/-- `filepath.Join` for the clean relative components this code joins. -/
def joinPath (a b : String) : String := a ++ "/" ++ b

/-- `fmt.Sprintf "%06d.part"` minus the suffix: zero-pad a chunk index to six
digits (indices below 10^6; Go prints wider numbers unpadded, as does this). -/
def pad6 (n : Nat) : String :=
  let r := Nat.repr n
  String.mk (List.replicate (6 - r.length) '0') ++ r

example : pad6 0 = "000000" := by decide
example : pad6 42 = "000042" := by decide

/-! ## Configuration (src/unnamed/part_007, AppConfig) — only the fields the
modelled operations consume -/

/-- The configuration fields the core operations read. -/
structure AppConfig where
  uploadDir : String
  mergedDir : String
  maxChunkSize : Nat
  enableIntegrityCheck : Bool
  enableAtomicOperations : Bool
  deriving DecidableEq, Repr

/-- The defaults of part_007 (100 MB chunks, both feature toggles on). -/
def defaultAppConfig : AppConfig :=
  { uploadDir := "./upload", mergedDir := "./merged", maxChunkSize := 104857600,
    enableIntegrityCheck := true, enableAtomicOperations := true }

/-! ## Task data model (src/utils/storage.go) -/

/-- `ChunkInfo` of storage.go.  Timestamps are abstract ticks (`Nat`). -/
structure ChunkInfo where
  index : Nat
  size : Nat
  md5 : String
  status : String
  uploadedAt : Nat
  retryCount : Nat
  deriving DecidableEq, Repr

/-- `UploadTask` of storage.go (the folder-aware version, lines 43-62). -/
structure UploadTask where
  fileID : String
  fileName : String
  relativePath : String
  totalChunks : Nat
  fileSize : Nat
  fileMD5 : String
  status : String
  createdAt : Nat
  updatedAt : Nat
  chunks : List (Nat × ChunkInfo)
  retryCount : Nat
  taskType : String
  parentTaskID : String
  folderName : String
  subTasks : List String
  isSubTask : Bool
  deriving DecidableEq, Repr

/-- The whole observable state: the in-memory task map of `TaskStorage` plus
the filesystem (chunk artifacts, lock files, metadata records). -/
structure Sys where
  tasks : List (String × UploadTask)
  fs : FS
  deriving DecidableEq, Repr

/-- Path of a task's durable metadata record
(`filepath.Join(storageDir, safeFileID + ".json")`, storage.go saveTaskFile). -/
def metaPath (cfg : AppConfig) (fileID : String) : String :=
  joinPath (cfg.uploadDir ++ "/.metadata") (SanitizeFileID fileID ++ ".json")

/-- The bytes `saveTaskFile` persists.  The JSON rendering is abstracted to a
deterministic encoding of the task; no claim depends on the serialized
bytes, only on which path is written and that equal tasks write equal bytes. -/
def taskBytes (t : UploadTask) : List Nat :=
  strBytes (t.fileID ++ "|" ++ t.status ++ "|" ++ Nat.repr t.totalChunks ++ "|"
    ++ Nat.repr t.updatedAt)

/-- `saveTaskFile` (storage.go lines 448-464): write the metadata record under
the sanitized identifier. -/
def saveTaskFileFS (cfg : AppConfig) (fs : FS) (t : UploadTask) : FS :=
  fsInsert fs (metaPath cfg t.fileID) (taskBytes t)

/-- `SaveTask` (storage.go lines 262-270): stamp `updatedAt`, upsert in memory,
persist. -/
def saveTask (cfg : AppConfig) (now : Nat) (sys : Sys) (t : UploadTask) : Sys :=
  let t := { t with updatedAt := now }
  { tasks := alInsert sys.tasks t.fileID t, fs := saveTaskFileFS cfg sys.fs t }

/-- Number of chunks recorded with status `completed`. -/
def completedCount (chunks : List (Nat × ChunkInfo)) : Nat :=
  (chunks.filter fun e => e.2.status = "completed").length

/-- `GetUploadedChunks` (storage.go lines 354-376): the indices whose chunk
status is `completed`. -/
def getUploadedChunks (tasks : List (String × UploadTask)) (fileID : String) : List Nat :=
  match alLookup tasks fileID with
  | none => []
  | some t => (t.chunks.filter fun e => e.2.status = "completed").map fun e => e.1

/-- `checkAndUpdateParentTask` (storage.go lines 320-351): re-aggregate a
folder task from its children (children missing from the store are skipped). -/
def checkAndUpdateParentTask (cfg : AppConfig) (now : Nat) (sys : Sys)
    (parentTaskID : String) : Sys :=
  match alLookup sys.tasks parentTaskID with
  | none => sys
  | some parent =>
      if parent.taskType = "folder" then
        let statuses := parent.subTasks.filterMap fun sid =>
          (alLookup sys.tasks sid).map fun t => t.status
        let allCompleted := statuses.all fun st => st = "completed"
        let anyFailed := statuses.any fun st => st = "failed"
        let parent' :=
          { parent with
            status := if allCompleted then "completed"
                      else if anyFailed then "uploading" else parent.status,
            updatedAt := now }
        { tasks := alInsert sys.tasks parentTaskID parent',
          fs := saveTaskFileFS cfg sys.fs parent' }
      else sys

/-- `UpdateChunk` (storage.go lines 282-317): merge the chunk info, recompute
completion, propagate to a parent folder task, persist.  The task is placed in
the map before the parent check, mirroring Go's in-place pointer mutation. -/
def updateChunk (cfg : AppConfig) (now : Nat) (sys : Sys) (fileID : String)
    (chunkIndex : Nat) (info : ChunkInfo) : Sys × Except String Unit :=
  match alLookup sys.tasks fileID with
  | none => (sys, .error "task does not exist")
  | some task =>
      let info := { info with uploadedAt := now }
      let chunks := alInsert task.chunks chunkIndex info
      let completed := completedCount chunks
      let task :=
        { task with
          chunks := chunks, updatedAt := now,
          status := if completed = task.totalChunks then "completed" else task.status }
      let sys1 : Sys := { sys with tasks := alInsert sys.tasks fileID task }
      let sys2 :=
        if completed = task.totalChunks ∧ task.isSubTask ∧ task.parentTaskID ≠ "" then
          checkAndUpdateParentTask cfg now sys1 task.parentTaskID
        else sys1
      ({ sys2 with fs := saveTaskFileFS cfg sys2.fs task }, .ok ())

/-- `deleteTaskInternal` (storage.go lines 513-531): remove the chunk artifact
directory, both lock files, the metadata record, and the in-memory entry.
`CleanupExpiredTasks` performs the same removals inline. -/
def deleteTaskInternal (cfg : AppConfig) (sys : Sys) (fileID : String) : Sys :=
  let safe := SanitizeFileID fileID
  let fs := fsRemoveAll sys.fs (joinPath cfg.uploadDir safe)
  let fs := fsErase fs (joinPath cfg.uploadDir (safe ++ ".lock"))
  let fs := fsErase fs (joinPath cfg.uploadDir (safe ++ ".merge.lock"))
  let fs := fsErase fs (metaPath cfg fileID)
  { tasks := alErase sys.tasks fileID, fs := fs }

/-- `DeleteTask` (storage.go lines 493-510): error when the task is unknown;
for a folder task first delete every child, then the task itself. -/
def deleteTask (cfg : AppConfig) (sys : Sys) (fileID : String) :
    Sys × Except String Unit :=
  match alLookup sys.tasks fileID with
  | none => (sys, .error "task does not exist")
  | some task =>
      let sys :=
        if task.taskType = "folder" then
          task.subTasks.foldl (deleteTaskInternal cfg) sys
        else sys
      (deleteTaskInternal cfg sys fileID, .ok ())

/-- `CleanupExpiredTasks` (storage.go lines 379-407): delete every failed or
paused task older than 7 days (604800 abstract seconds).  Go iterates the map
in unspecified order; the model iterates the list in order (the per-task
removals touch disjoint entries). -/
def cleanupExpiredTasks (cfg : AppConfig) (now : Nat) (sys : Sys) : Sys :=
  let expired := sys.tasks.filter fun e =>
    (e.2.status = "failed" ∨ e.2.status = "paused") ∧ e.2.updatedAt < now - 604800
  expired.foldl (fun s e => deleteTaskInternal cfg s e.1) sys

/-! ## AtomicWriter (src/utils/atomic.go lines 13-105)

The temp file lives in the filesystem; the writer additionally carries the
running digest input (`buf`) and byte count (`size`).  `Commit` can fail at
three steps (sync, close, rename); a `FaultSpec` injects those failures. -/

/-- `AtomicWriter` of atomic.go. -/
structure AtomicWriter where
  targetPath : String
  tempPath : String
  buf : List Nat
  size : Nat
  deriving DecidableEq, Repr

/-- Which step of `Commit` fails, if any. -/
structure FaultSpec where
  syncFails : Bool
  closeFails : Bool
  renameFails : Bool
  deriving DecidableEq, Repr

/-- No injected failure. -/
def noFaults : FaultSpec := ⟨false, false, false⟩

/-- `NewAtomicWriter` (atomic.go lines 23-46): create the uniquely-named temp
file next to the target (`targetPath + ".tmp." + nanos`). -/
def newAtomicWriter (fs : FS) (targetPath : String) (nanos : Nat) : FS × AtomicWriter :=
  let tempPath := targetPath ++ ".tmp." ++ Nat.repr nanos
  (fsInsert fs tempPath [], ⟨targetPath, tempPath, [], 0⟩)

/-- `Write` (atomic.go lines 49-60): append to the temp file, feed the digest,
update the running size. -/
def atomicWrite (fs : FS) (w : AtomicWriter) (data : List Nat) : FS × AtomicWriter :=
  let cur := (fsLookup fs w.tempPath).getD []
  (fsInsert fs w.tempPath (cur ++ data),
   { w with buf := w.buf ++ data, size := w.size + data.length })

/-- `Commit` (atomic.go lines 63-84): sync, close, rename; on any step's
failure remove the temp file and return the error; on success the rename
installs the temp file's content at the target. -/
def atomicCommit (faults : FaultSpec) (fs : FS) (w : AtomicWriter) :
    FS × Except String Unit :=
  if faults.syncFails then (fsErase fs w.tempPath, .error "sync failed")
  else if faults.closeFails then (fsErase fs w.tempPath, .error "close failed")
  else if faults.renameFails then (fsErase fs w.tempPath, .error "rename failed")
  else
    let content := (fsLookup fs w.tempPath).getD []
    (fsInsert (fsErase fs w.tempPath) w.targetPath content, .ok ())

/-- `Rollback` (atomic.go lines 87-92): close and delete the temp file. -/
def atomicRollback (fs : FS) (w : AtomicWriter) : FS := fsErase fs w.tempPath

/-- `GetMD5` (atomic.go lines 95-100): hex digest of everything written. -/
def atomicGetMD5 (w : AtomicWriter) : String := md5Hex w.buf

/-- `GetSize` (atomic.go lines 103-105). -/
def atomicGetSize (w : AtomicWriter) : Nat := w.size

/-! ## Chunk upload (src/handler/auth.go, second section: UploadChunk /
uploadChunkWithAtomicOperation) -/

/-- `uploadChunkWithAtomicOperation` (auth.go lines 231-295).  Note the save
directory is `filepath.Join(Config.UploadDir, fileID)` — the RAW identifier,
not `SanitizeFileID(fileID)`.  `nanos` feeds the atomic writer's temp-file
name; the writer path here is the fault-free one (the handler's retry wrapper
re-runs the operation on transient I/O failure, and the claims about this
operation concern its fault-free outcome).  The inline idempotency check of
auth.go lines 241-251 — artifact present, same byte length, matching digest
when one was supplied — is named `chunkAlreadyOk`. -/
def chunkAlreadyOk (fs : FS) (savePath : String) (data : List Nat)
    (chunkMD5 : String) : Bool :=
  match fsLookup fs savePath with
  | some content =>
      if content.length = data.length then
        if chunkMD5 ≠ "" then decide (md5Hex content = chunkMD5) else true
      else false
  | none => false

/-- The body of `uploadChunkWithAtomicOperation` after the idempotency check:
optional MD5 verification of the received bytes, then the atomic (or plain)
write of the chunk artifact. -/
def uploadChunkWithAtomicOperation (cfg : AppConfig) (nanos : Nat) (fs : FS)
    (fileID : String) (index : Nat) (data : List Nat) (chunkMD5 : String) :
    FS × Except String Unit :=
  let saveDir := joinPath cfg.uploadDir fileID
  let savePath := joinPath saveDir (pad6 index ++ ".part")
  if chunkAlreadyOk fs savePath data chunkMD5 then (fs, .ok ())
  else if chunkMD5 ≠ "" ∧ cfg.enableIntegrityCheck = true ∧ md5Hex data ≠ chunkMD5 then
    (fs, .error "md5 mismatch")
  else if cfg.enableAtomicOperations then
    let (fs1, w) := newAtomicWriter fs savePath nanos
    let (fs2, w2) := atomicWrite fs1 w data
    ((atomicCommit noFaults fs2 w2).1, .ok ())
  else
    (fsInsert fs savePath data, .ok ())

/-- Outcome of the chunk-upload HTTP handler, after request parsing. -/
inductive UploadResponse
  | tooLarge
  | chunkFailed (msg : String)
  | ok (chunkIndex : Nat) (md5Checked : Bool) (size : Nat)
  deriving DecidableEq, Repr

/-- The tail of `UploadChunk` (auth.go lines 196-227): given the outcome of
`uploadChunkWithAtomicOperation`, record the chunk as `failed` or `completed`
in the Task Store, release the lock when it was acquired, and answer. -/
def recordUploadOutcome (cfg : AppConfig) (now : Nat) (acquired : Bool)
    (lockPath fileID : String) (index : Nat) (data : List Nat) (chunkMD5 : String)
    (sysB : Sys) (res : FS × Except String Unit) : Sys × UploadResponse :=
  let sys : Sys := { sysB with fs := res.1 }
  match res.2 with
  | .error e =>
      let info : ChunkInfo :=
        { index := index, size := data.length, md5 := "", status := "failed",
          uploadedAt := 0, retryCount := 0 }
      let sys := (updateChunk cfg now sys fileID index info).1
      let sys : Sys :=
        if acquired then { sys with fs := fsErase sys.fs lockPath } else sys
      (sys, .chunkFailed e)
  | .ok _ =>
      let info : ChunkInfo :=
        { index := index, size := data.length, md5 := chunkMD5, status := "completed",
          uploadedAt := 0, retryCount := 0 }
      let sys := (updateChunk cfg now sys fileID index info).1
      let sys : Sys :=
        if acquired then { sys with fs := fsErase sys.fs lockPath } else sys
      (sys, .ok index (chunkMD5 ≠ "") data.length)

/-- `UploadChunk` (auth.go lines 120-228), after parameter parsing: size
check, best-effort lock on `UploadDir/<raw fileID>.lock`, task creation on
first chunk, the atomic upload operation, then chunk-status recording
(`recordUploadOutcome`).  `RetryWithBackoff` around the pure, deterministic
operation either succeeds on the first invocation or fails every invocation
with the same error, so it is modelled by a single invocation (the retry
combinator itself is modelled separately as `retryGo`). -/
def uploadChunkHandler (cfg : AppConfig) (now nanos : Nat) (sys : Sys)
    (fileID : String) (index : Nat) (data : List Nat) (chunkMD5 relativePath : String)
    (totalChunks fileSize : Nat) (filename : String) : Sys × UploadResponse :=
  if data.length > cfg.maxChunkSize then (sys, .tooLarge)
  else
    let lockPath := joinPath cfg.uploadDir (fileID ++ ".lock")
    let acquired := (fsLookup sys.fs lockPath).isNone
    let sys : Sys :=
      if acquired then { sys with fs := fsInsert sys.fs lockPath (strBytes "pid") }
      else sys
    let sys :=
      match alLookup sys.tasks fileID with
      | some _ => sys
      | none =>
          saveTask cfg now sys
            { fileID := fileID, fileName := filename, relativePath := relativePath,
              totalChunks := totalChunks, fileSize := fileSize, fileMD5 := "",
              status := "uploading", createdAt := now, updatedAt := now,
              chunks := [], retryCount := 0, taskType := "", parentTaskID := "",
              folderName := "", subTasks := [], isSubTask := false }
    recordUploadOutcome cfg now acquired lockPath fileID index data chunkMD5 sys
      (uploadChunkWithAtomicOperation cfg nanos sys.fs fileID index data chunkMD5)

/-! ## Merge (src/handler/merge.go) -/

/-- `strings.Contains` (the real library function, used on the cleaned path). -/
def listContains (s t : List Char) : Bool :=
  (List.range (s.length - t.length + 1)).any fun i => (s.drop i).take t.length = t

/-- `strings.Contains` over `String`. -/
def goContains (s t : String) : Bool := listContains s.toList t.toList

/-- Split a character list at `/` (the path-element decomposition
`filepath.Clean` walks). -/
def splitSlash (cur : List Char) : List Char → List (List Char)
  | [] => [cur.reverse]
  | c :: rest => if c = '/' then cur.reverse :: splitSlash [] rest else splitSlash (c :: cur) rest

/-- Join path elements with `/`. -/
def joinSlash : List (List Char) → List Char
  | [] => []
  | [x] => x
  | x :: y :: rest => x ++ '/' :: joinSlash (y :: rest)

/-- The element-stack core of `filepath.Clean`: skip empty and `.` elements,
let `..` pop a previous element (kept literally at the head of a relative
path, dropped at the root of a rooted one). -/
def cleanElems (rooted : Bool) (acc : List (List Char)) : List (List Char) → List (List Char)
  | [] => acc.reverse
  | c :: rest =>
      if c = [] ∨ c = ['.'] then cleanElems rooted acc rest
      else if c = ['.', '.'] then
        match acc with
        | [] => if rooted then cleanElems rooted [] rest else cleanElems rooted [['.', '.']] rest
        | top :: accRest =>
            if top = ['.', '.'] then cleanElems rooted (['.', '.'] :: acc) rest
            else cleanElems rooted accRest rest
      else cleanElems rooted (c :: acc) rest

/-- `filepath.Clean` (path/filepath, Unix rules): shortest equivalent path. -/
def goClean (path : String) : String :=
  let cs := path.toList
  let rooted := cs.headD ' ' = '/'
  let out := joinSlash (cleanElems rooted [] (splitSlash [] cs))
  if rooted then String.mk ('/' :: out)
  else if out = [] then "." else String.mk out

example : goClean "a/../../b" = "../b" := by decide
example : goClean "docs//x/./y" = "docs/x/y" := by decide

/-- Structured failure of `mergeChunksWithIntegrityCheck`. -/
inductive MergeErr
  | invalidRelativePath
  | missingChunk (chunkName : String)
  | integrityFailed (expected actual : String)
  deriving DecidableEq, Repr

/-- The success payload of a merge (merge.go `MergeResult`, minus the wall-clock
duration). -/
structure MergeResult where
  filePath : String
  md5 : String
  size : Nat
  deriving DecidableEq, Repr

/-- The pre-copy existence scan of merge.go lines 146-156: the name of the
first expected chunk artifact missing from `srcDir`, scanning `k` indices
starting at `i`. -/
def findMissingChunk (fs : FS) (srcDir : String) : Nat → Nat → Option String
  | _, 0 => none
  | i, k + 1 =>
      let name := pad6 i ++ ".part"
      if (fsLookup fs (joinPath srcDir name)).isNone then some name
      else findMissingChunk fs srcDir (i + 1) k

/-- The bytes of chunks `0 .. totalChunks-1` of `srcDir`, concatenated in
ascending index order (the copy loop of merge.go lines 166-180). -/
def chunkConcat (fs : FS) (srcDir : String) (totalChunks : Nat) : List Nat :=
  (List.range totalChunks).foldl
    (fun acc i => acc ++ ((fsLookup fs (joinPath srcDir (pad6 i ++ ".part"))).getD [])) []

/-- `mergeChunksWithIntegrityCheck` (merge.go lines 119-298).  Note the source
directory is `filepath.Join(Config.UploadDir, SanitizeFileID(fileID))` — the
SANITIZED identifier (merge.go lines 123-124).  Chunk reads cannot fail in the
model once the existence scan has passed, so the writer path is fault-free;
the detached post-success cleanup goroutine is not part of the synchronous
effect and is not modelled. -/
def mergeChunksWithIntegrityCheck (cfg : AppConfig) (nanos : Nat) (fs : FS)
    (fileID filename relativePath : String) (totalChunks : Nat)
    (expectedMD5 : String) : FS × Except MergeErr MergeResult :=
  let srcDir := joinPath cfg.uploadDir (SanitizeFileID fileID)
  let dstPath? : Option String :=
    if relativePath ≠ "" then
      let cleanPath := goClean relativePath
      if goContains cleanPath ".." then none
      else some (joinPath cfg.mergedDir cleanPath)
    else some (joinPath cfg.mergedDir filename)
  match dstPath? with
  | none => (fs, .error .invalidRelativePath)
  | some dstPath =>
      match findMissingChunk fs srcDir 0 totalChunks with
      | some name => (fs, .error (.missingChunk name))
      | none =>
          if cfg.enableAtomicOperations then
            let (fs1, w) := newAtomicWriter fs dstPath nanos
            let (fs2, w2) := (List.range totalChunks).foldl
              (fun st i =>
                atomicWrite st.1 st.2
                  ((fsLookup fs (joinPath srcDir (pad6 i ++ ".part"))).getD []))
              (fs1, w)
            let fs3 := (atomicCommit noFaults fs2 w2).1
            let calculatedMD5 := atomicGetMD5 w2
            if expectedMD5 ≠ "" ∧ cfg.enableIntegrityCheck = true ∧ calculatedMD5 ≠ expectedMD5 then
              (fsErase fs3 dstPath, .error (.integrityFailed expectedMD5 calculatedMD5))
            else
              (fs3, .ok ⟨dstPath, calculatedMD5, atomicGetSize w2⟩)
          else
            let content := chunkConcat fs srcDir totalChunks
            let fs1 := fsInsert fs dstPath content
            let md5Hash := md5Hex content
            if expectedMD5 ≠ "" ∧ cfg.enableIntegrityCheck = true ∧ md5Hash ≠ expectedMD5 then
              (fsErase fs1 dstPath, .error (.integrityFailed expectedMD5 md5Hash))
            else
              (fs1, .ok ⟨dstPath, md5Hash, content.length⟩)

/-- Outcome of the merge HTTP handler, after request parsing. -/
inductive MergeResponse
  | taskNotFound
  | incomplete (uploaded totalRequired : Nat)
  | conflict
  | mergeFailed (e : MergeErr)
  | ok (r : MergeResult)
  deriving DecidableEq, Repr

/-- `MergeChunks` (merge.go lines 17-108), after parameter parsing: task
lookup, the completeness gate (`len(uploadedChunks) != totalChunks` → the
structured `incomplete` response), the merge lock on
`UploadDir/<sanitized fileID>.merge.lock`, the merge itself, then the task
status transition.  The retry wrapper around the pure, deterministic merge is
modelled by a single invocation (every `MergeErr` renders to a message that
matches none of the transient signatures, so `RetryWithBackoff` returns it
after the first invocation); the detached cleanup goroutine is not modelled. -/
def mergeChunksHandler (cfg : AppConfig) (now nanos : Nat) (sys : Sys)
    (fileID filename relativePath : String) (totalChunks : Nat)
    (expectedMD5 : String) : Sys × MergeResponse :=
  match alLookup sys.tasks fileID with
  | none => (sys, .taskNotFound)
  | some task =>
      let uploaded := getUploadedChunks sys.tasks fileID
      if uploaded.length ≠ totalChunks then (sys, .incomplete uploaded.length totalChunks)
      else
        let lockPath := joinPath cfg.uploadDir (SanitizeFileID fileID ++ ".merge.lock")
        if (fsLookup sys.fs lockPath).isSome then (sys, .conflict)
        else
          let fs0 := fsInsert sys.fs lockPath (strBytes "pid")
          let (fs1, r) := mergeChunksWithIntegrityCheck cfg nanos fs0 fileID filename
            relativePath totalChunks expectedMD5
          match r with
          | .error e =>
              let sys := saveTask cfg now { sys with fs := fs1 } { task with status := "failed" }
              ({ sys with fs := fsErase sys.fs lockPath }, .mergeFailed e)
          | .ok result =>
              let sys := saveTask cfg now { sys with fs := fs1 }
                { task with status := "completed", fileMD5 := result.md5 }
              ({ sys with fs := fsErase sys.fs lockPath }, .ok result)

/-! ## Retry policy (src/utils/retry.go) -/

/-- The transient-failure signatures of `IsRetryableError` (retry.go lines
36-50). -/
def retryableSignatures : List String :=
  ["connection refused", "connection reset", "connection timeout",
   "network is unreachable", "temporary failure", "server error",
   "service unavailable", "timeout", "deadline exceeded", "i/o timeout",
   "broken pipe", "no route to host", "operation timed out"]

/-- `IsRetryableError` (retry.go lines 28-59), with Go errors modelled by
their message strings (a nil error never reaches this point in the loop). -/
def isRetryableError (err : String) : Bool :=
  retryableSignatures.any fun sub => goRetryContains err.toList sub.toList

/-- `RetryConfig` (retry.go lines 12-17).  `time.Duration` and the `float64`
backoff factor are modelled over `ℚ` (exact arithmetic; the delays of the
default configuration are exactly representable either way). -/
structure RetryConfig where
  maxRetries : Nat
  initialDelay : ℚ
  maxDelay : ℚ
  backoffFactor : ℚ

/-- `DefaultRetryConfig` (retry.go lines 20-25), in seconds. -/
def defaultRetryConfig : RetryConfig :=
  { maxRetries := 3, initialDelay := 1, maxDelay := 30, backoffFactor := 2 }

/-- `calculateDelay` (retry.go lines 104-119): exponential backoff capped at
`maxDelay`. -/
def calculateDelay (attempt : Nat) (config : RetryConfig) : ℚ :=
  let delay :=
    if attempt > 0 then config.initialDelay * config.backoffFactor ^ attempt
    else config.initialDelay
  if delay > config.maxDelay then config.maxDelay else delay

/-- How a `retryGo` run ended. -/
inductive RetryResult
  | success
  | nonRetryable (e : String)
  | exhausted (last : String)
  deriving DecidableEq, Repr

/-- The observable trace of one `RetryWithBackoff` run: how many times the
operation ran, the waits between consecutive attempts, and the outcome. -/
structure RetryOutcome where
  invocations : Nat
  delays : List ℚ
  result : RetryResult

/-- The loop body of `RetryWithBackoff` (retry.go lines 62-101), with
`remaining` retries left after the current attempt.  The operation is a
function of the attempt number returning `none` for success and `some e` for
failure with error message `e`; cancellation (ctx) is not exercised. -/
def retryGoAux (op : Nat → Option String) (cfg : RetryConfig) :
    Nat → Nat → RetryOutcome
  | attempt, 0 =>
      match op attempt with
      | none => ⟨1, [], .success⟩
      | some e =>
          if isRetryableError e then ⟨1, [], .exhausted e⟩ else ⟨1, [], .nonRetryable e⟩
  | attempt, f + 1 =>
      match op attempt with
      | none => ⟨1, [], .success⟩
      | some e =>
          if isRetryableError e then
            let rest := retryGoAux op cfg (attempt + 1) f
            ⟨rest.invocations + 1, calculateDelay attempt cfg :: rest.delays, rest.result⟩
          else ⟨1, [], .nonRetryable e⟩

/-- `RetryWithBackoff` (retry.go lines 62-101). -/
def retryGo (op : Nat → Option String) (cfg : RetryConfig) : RetryOutcome :=
  retryGoAux op cfg 0 cfg.maxRetries

/-! ## On-demand cleanup (src/handler/task.go lines 371-438, CleanupTasks) -/

/-- `CleanupTasks` (task.go), after parameter parsing: with no filters, run the
default expiry cleanup (count reported as -1); otherwise scan the main tasks
and delete those matching the status filter or the age filter.  The age is
computed, as in the source, as `task.UpdatedAt.Sub(task.UpdatedAt)` — the
task's own timestamp subtracted from itself.  Returns the new state and the
reported cleaned count. -/
def cleanupTasksHandler (cfg : AppConfig) (now : Nat) (sys : Sys)
    (statusFilter : String) (olderThanDays : Nat) : Sys × Int :=
  if statusFilter = "" ∧ olderThanDays = 0 then
    (cleanupExpiredTasks cfg now sys, -1)
  else
    let mainTasks := sys.tasks.filter fun e => e.2.isSubTask = false
    mainTasks.foldl
      (fun st e =>
        let task := e.2
        let daysDiff := (task.updatedAt - task.updatedAt) / 24
        let shouldClean :=
          (statusFilter ≠ "" ∧ task.status = statusFilter) ∨
          (olderThanDays > 0 ∧ daysDiff ≥ olderThanDays)
        if shouldClean then
          match deleteTask cfg st.1 e.1 with
          | (sys', .ok _) => (sys', st.2 + 1)
          | (sys', .error _) => (sys', st.2)
        else st)
      (sys, (0 : Int))

/-! ## Concrete scenario states used by the closed theorems -/

/-- A one-chunk task whose single chunk is recorded completed. -/
def oneChunkDoneTask : UploadTask :=
  { fileID := "t", fileName := "t", relativePath := "", totalChunks := 1, fileSize := 1,
    fileMD5 := "", status := "completed", createdAt := 0, updatedAt := 0,
    chunks := [(0, { index := 0, size := 1, md5 := "", status := "completed",
                     uploadedAt := 0, retryCount := 0 })],
    retryCount := 0, taskType := "file", parentTaskID := "", folderName := "",
    subTasks := [], isSubTask := false }

/-- A store holding only `oneChunkDoneTask`. -/
def oneChunkDoneSys : Sys := ⟨[("t", oneChunkDoneTask)], []⟩

/-- A fresh one-chunk task with an empty chunk map, status `uploading`. -/
def freshOneChunkTask : UploadTask :=
  { fileID := "w", fileName := "w", relativePath := "", totalChunks := 1, fileSize := 1,
    fileMD5 := "", status := "uploading", createdAt := 0, updatedAt := 0, chunks := [],
    retryCount := 0, taskType := "file", parentTaskID := "", folderName := "",
    subTasks := [], isSubTask := false }

/-- A failed sub-task, child of folder task `p`. -/
def failedChildTask : UploadTask :=
  { fileID := "q", fileName := "q", relativePath := "", totalChunks := 1, fileSize := 1,
    fileMD5 := "", status := "failed", createdAt := 0, updatedAt := 0, chunks := [],
    retryCount := 0, taskType := "file", parentTaskID := "p", folderName := "",
    subTasks := [], isSubTask := true }

/-- A one-chunk folder task registered as its own parent: `parentTaskID` is its
own store key, so in Go the parent pointer inside `checkAndUpdateParentTask`
aliases the task itself.  Its sub-task list holds itself and the failed child
`q`. -/
def selfParentFolderTask : UploadTask :=
  { fileID := "p", fileName := "p", relativePath := "", totalChunks := 1, fileSize := 1,
    fileMD5 := "", status := "uploading", createdAt := 0, updatedAt := 0, chunks := [],
    retryCount := 0, taskType := "folder", parentTaskID := "p", folderName := "p",
    subTasks := ["p", "q"], isSubTask := true }

/-- A store holding the self-parent folder task and its failed child. -/
def selfParentSys : Sys := ⟨[("p", selfParentFolderTask), ("q", failedChildTask)], []⟩

/-- A two-chunk task with no chunk yet uploaded (for the incomplete gate). -/
def twoChunkEmptyTask : UploadTask :=
  { fileID := "f2", fileName := "f2", relativePath := "", totalChunks := 2, fileSize := 2,
    fileMD5 := "", status := "uploading", createdAt := 0, updatedAt := 0, chunks := [],
    retryCount := 0, taskType := "file", parentTaskID := "", folderName := "",
    subTasks := [], isSubTask := false }

/-- State after uploading the single chunk `[65]` of file `f1`. -/
def c1AfterUpload : Sys :=
  (uploadChunkHandler defaultAppConfig 1 7 ⟨[], []⟩ "f1" 0 [65] "" "" 1 1 "f.txt").1

/-- States after uploading the three chunks of file `g` in index order 1, 2, 0
(payloads "B", "C", "A"). -/
def c3AfterFirst : Sys :=
  (uploadChunkHandler defaultAppConfig 1 7 ⟨[], []⟩ "g" 1 [66] "" "" 3 3 "g.txt").1

def c3AfterSecond : Sys :=
  (uploadChunkHandler defaultAppConfig 2 8 c3AfterFirst "g" 2 [67] "" "" 3 3 "g.txt").1

def c3AfterThird : Sys :=
  (uploadChunkHandler defaultAppConfig 3 9 c3AfterSecond "g" 0 [65] "" "" 3 3 "g.txt").1

/-- The destination path of a chunk artifact, exactly as
`uploadChunkWithAtomicOperation` computes it (raw `fileID` directory,
zero-padded index, `.part` suffix). -/
def chunkSavePath (cfg : AppConfig) (fileID : String) (index : Nat) : String :=
  joinPath (joinPath cfg.uploadDir fileID) (pad6 index ++ ".part")

/-- Open an atomic writer on `target` and write `data` once: the state every
`Commit`/`Rollback` claim starts from. -/
def awOpenWrite (fs : FS) (target : String) (nanos : Nat) (data : List Nat) :
    FS × AtomicWriter :=
  let (fs1, w) := newAtomicWriter fs target nanos
  atomicWrite fs1 w data

/-! ## Lemma kit: association lists, strings, digests -/

theorem alLookup_insert_self {α β : Type} [DecidableEq α] (l : List (α × β)) (k : α) (v : β) :
    alLookup (alInsert l k v) k = some v := by
  induction l with
  | nil => simp [alInsert, alLookup]
  | cons e rest ih =>
      by_cases h : e.1 = k
      · obtain ⟨k1, v1⟩ := e
        simp_all [alInsert, alLookup]
      · obtain ⟨k1, v1⟩ := e
        simp_all [alInsert, alLookup]

theorem alLookup_insert_ne {α β : Type} [DecidableEq α] (l : List (α × β)) (k k' : α) (v : β)
    (h : k' ≠ k) : alLookup (alInsert l k v) k' = alLookup l k' := by
  induction l with
  | nil => simp [alInsert, alLookup, Ne.symm h]
  | cons e rest ih =>
      obtain ⟨k1, v1⟩ := e
      by_cases h1 : k1 = k
      · subst h1
        simp [alInsert, alLookup, Ne.symm h]
      · simp only [alInsert, if_neg h1]
        by_cases h2 : k1 = k'
        · simp [alLookup, h2]
        · simp [alLookup, h2, ih]

theorem alLookup_erase_self {α β : Type} [DecidableEq α] (l : List (α × β)) (k : α) :
    alLookup (alErase l k) k = none := by
  induction l with
  | nil => simp [alErase, alLookup]
  | cons e rest ih =>
      obtain ⟨k1, v1⟩ := e
      by_cases h : k1 = k
      · simpa [alErase, List.filter, h] using ih
      · simpa [alErase, alLookup, List.filter, h] using ih

theorem alLookup_erase_ne {α β : Type} [DecidableEq α] (l : List (α × β)) (k k' : α)
    (h : k' ≠ k) : alLookup (alErase l k) k' = alLookup l k' := by
  induction l with
  | nil => simp [alErase, alLookup]
  | cons e rest ih =>
      obtain ⟨k1, v1⟩ := e
      by_cases h1 : k1 = k
      · subst h1
        simpa [alErase, alLookup, List.filter, Ne.symm h] using ih
      · by_cases h2 : k1 = k'
        · subst h2
          simp [alErase, alLookup, List.filter, h1, h]
        · simpa [alErase, alLookup, List.filter, h1, h2] using ih

/-- Strings with equal character lists are equal. -/
theorem string_data_ext {a b : String} (h : a.data = b.data) : a = b := by
  cases a
  cases b
  exact congrArg String.mk (by simpa using h)

/-- Two strings are different when they end in different same-length suffixes. -/
theorem append_suffix_ne (a b u v : String) (hlen : u.length = v.length) (hne : u ≠ v) :
    a ++ u ≠ b ++ v := by
  intro h
  apply hne
  have hd : a.data ++ u.data = b.data ++ v.data := by
    simpa [String.data_append] using congrArg String.data h
  have hl : u.data.length = v.data.length := hlen
  obtain ⟨-, h2⟩ := List.append_inj' hd hl
  exact string_data_ext h2

/-- String concatenation re-association via the underlying lists. -/
theorem string_append_assoc (a b c : String) : a ++ b ++ c = a ++ (b ++ c) :=
  string_data_ext (by simp [String.data_append, List.append_assoc])

theorem leBytes_length (k : Nat) : ∀ n, (leBytes n k).length = k := by
  induction k with
  | zero => intro n; rfl
  | succ k ih => intro n; simp [leBytes, ih]

theorem flatMap_byteHexChars_length (l : List Nat) :
    (l.flatMap byteHexChars).length = 2 * l.length := by
  induction l with
  | nil => rfl
  | cons b rest ih => simp [List.flatMap_cons, byteHexChars, ih]; ring

theorem md5HexChars_length (m : List Nat) : (md5HexChars m).length = 32 := by
  simp only [md5HexChars]
  rw [flatMap_byteHexChars_length]
  simp [md5Bytes, List.length_append, leBytes_length]

/-! ## C9 — sanitization is not injective on the stated domain -/

/-- C9 counterexample: two distinct 54-character identifiers agreeing on their
first 50 characters (so differing only beyond the truncation threshold, no
path separators involved) whose 32-bit MD5 prefixes collide: `SanitizeFileID`
maps them to the same name. -/
theorem sanitizeFileID_collision :
    ("aaaaaaaaaaaaaaaaaaaaaaaaaaaaaaaaaaaaaaaaaaaaaaaaaaakrg" : String) ≠
      "aaaaaaaaaaaaaaaaaaaaaaaaaaaaaaaaaaaaaaaaaaaaaaaaaaa84h"
    ∧ ("aaaaaaaaaaaaaaaaaaaaaaaaaaaaaaaaaaaaaaaaaaaaaaaaaaakrg" : String).toList.take 50 =
      ("aaaaaaaaaaaaaaaaaaaaaaaaaaaaaaaaaaaaaaaaaaaaaaaaaaa84h" : String).toList.take 50
    ∧ SanitizeFileID "aaaaaaaaaaaaaaaaaaaaaaaaaaaaaaaaaaaaaaaaaaaaaaaaaaakrg" =
      SanitizeFileID "aaaaaaaaaaaaaaaaaaaaaaaaaaaaaaaaaaaaaaaaaaaaaaaaaaa84h" := by
  refine ⟨by decide, by decide, by decide⟩

/-- C9 amended: sanitized names are distinct whenever the identifiers' 8-hex-
character MD5 prefixes differ (the appended hash, not the truncated readable
part, is what separates identifiers that differ only in separators or beyond
the truncation threshold — and being only 32 bits it admits collisions, see
the counterexample). -/
theorem sanitizeFileID_injective_on_hash (x y : String)
    (h : md5Prefix8 x ≠ md5Prefix8 y) : SanitizeFileID x ≠ SanitizeFileID y := by
  intro heq
  apply h
  have hl : sanitizeChars x.toList = sanitizeChars y.toList := by
    simpa [SanitizeFileID] using congrArg String.data heq
  unfold sanitizeChars at hl
  have hlen : ('_' :: (md5HexChars (x.toList.map Char.toNat)).take 8).length =
      ('_' :: (md5HexChars (y.toList.map Char.toNat)).take 8).length := by
    simp [List.length_take, md5HexChars_length]
  obtain ⟨-, h2⟩ := List.append_inj' hl hlen
  simp only [List.cons.injEq, true_and] at h2
  simpa [md5Prefix8, strBytes] using h2

/-- C9 witness: "a" and "b" have different MD5 prefixes, so their sanitized
names differ. -/
theorem sanitizeFileID_injective_on_hash_witness :
    SanitizeFileID "a" ≠ SanitizeFileID "b" :=
  sanitizeFileID_injective_on_hash "a" "b" (by decide)

/-! ## C10 — on-demand cleanup with only a positive age filter deletes nothing -/

/-- C10: with no status filter and a positive `older_than` age filter, the
on-demand cleanup endpoint deletes no task and reports a count of zero: the
age it computes is `task.UpdatedAt.Sub(task.UpdatedAt)`, which is always zero
and never reaches a positive threshold. -/
theorem cleanupTasks_age_filter_deletes_nothing (cfg : AppConfig) (now : Nat) (sys : Sys)
    (days : Nat) (hdays : 0 < days) :
    cleanupTasksHandler cfg now sys "" days = (sys, 0) := by
  have hne : ¬ (("" : String) = "" ∧ days = 0) := by
    rintro ⟨-, h0⟩
    omega
  have hcond : ¬ (0 < days ∧ days = 0) := by omega
  unfold cleanupTasksHandler
  rw [if_neg hne]
  generalize (sys.tasks.filter fun e => e.2.isSubTask = false) = l
  induction l generalizing sys with
  | nil => rfl
  | cons e rest ih => simp [hcond]

/-! ## C4 — atomic writer: failed commits and rollbacks never touch the
destination; only a successful rename installs it -/

/-- The writer's temp path differs from its target (it extends it by
`".tmp." ++ nanos`). -/
theorem tempPath_ne_target (target : String) (nanos : Nat) :
    target ++ ".tmp." ++ Nat.repr nanos ≠ target := by
  intro h
  have hlen := congrArg String.length h
  rw [String.length_append, String.length_append] at hlen
  have h5 : (".tmp." : String).length = 5 := rfl
  omega

/-- What open-then-write leaves behind: the temp file holds `data`, the
writer's digest input is `data` and its size `data.length`. -/
theorem awOpenWrite_eq (fs : FS) (target : String) (nanos : Nat) (data : List Nat) :
    awOpenWrite fs target nanos data =
      (fsInsert (fsInsert fs (target ++ ".tmp." ++ Nat.repr nanos) [])
        (target ++ ".tmp." ++ Nat.repr nanos) data,
       ⟨target, target ++ ".tmp." ++ Nat.repr nanos, data, data.length⟩) := by
  have hcur : fsLookup (fsInsert fs (target ++ ".tmp." ++ Nat.repr nanos)
      (target ++ ".tmp." ++ Nat.repr nanos |> fun _ => [])) (target ++ ".tmp." ++ Nat.repr nanos) =
      some [] := alLookup_insert_self fs _ []
  simp [awOpenWrite, newAtomicWriter, atomicWrite, fsLookup, fsInsert,
    alLookup_insert_self]

/-- C4: for every starting filesystem, target, write, and injected fault:
a `Commit` any of whose steps (sync, close, rename) fails returns an error,
removes the temp file and leaves the destination exactly as it was;
`Rollback` likewise removes the temp file and leaves the destination
untouched; and a fault-free `Commit` — the successful rename — is what
creates/replaces the destination, installing precisely the written bytes. -/
theorem atomicWriter_commit_rollback_safety (fs : FS) (target : String) (nanos : Nat)
    (data : List Nat) (faults : FaultSpec)
    (hf : faults.syncFails = true ∨ faults.closeFails = true ∨ faults.renameFails = true) :
    (∃ e, (atomicCommit faults (awOpenWrite fs target nanos data).1
        (awOpenWrite fs target nanos data).2).2 = .error e)
    ∧ fsLookup (atomicCommit faults (awOpenWrite fs target nanos data).1
        (awOpenWrite fs target nanos data).2).1 target = fsLookup fs target
    ∧ fsLookup (atomicCommit faults (awOpenWrite fs target nanos data).1
        (awOpenWrite fs target nanos data).2).1
        (awOpenWrite fs target nanos data).2.tempPath = none
    ∧ fsLookup (atomicRollback (awOpenWrite fs target nanos data).1
        (awOpenWrite fs target nanos data).2) target = fsLookup fs target
    ∧ fsLookup (atomicRollback (awOpenWrite fs target nanos data).1
        (awOpenWrite fs target nanos data).2)
        (awOpenWrite fs target nanos data).2.tempPath = none
    ∧ (atomicCommit noFaults (awOpenWrite fs target nanos data).1
        (awOpenWrite fs target nanos data).2).2 = .ok ()
    ∧ fsLookup (atomicCommit noFaults (awOpenWrite fs target nanos data).1
        (awOpenWrite fs target nanos data).2).1 target = some data := by
  have htne : target ++ ".tmp." ++ Nat.repr nanos ≠ target := tempPath_ne_target target nanos
  rw [awOpenWrite_eq]
  have hins : ∀ v : List Nat,
      fsLookup (fsInsert (fsInsert fs (target ++ ".tmp." ++ Nat.repr nanos) [])
        (target ++ ".tmp." ++ Nat.repr nanos) v) target = fsLookup fs target := by
    intro v
    simp only [fsLookup, fsInsert]
    rw [alLookup_insert_ne _ _ _ _ (Ne.symm htne), alLookup_insert_ne _ _ _ _ (Ne.symm htne)]
  have htmp : fsLookup (fsInsert (fsInsert fs (target ++ ".tmp." ++ Nat.repr nanos) [])
      (target ++ ".tmp." ++ Nat.repr nanos) data) (target ++ ".tmp." ++ Nat.repr nanos) =
      some data := alLookup_insert_self _ _ _
  refine ⟨?_, ?_, ?_, ?_, ?_, ?_, ?_⟩
  · obtain ⟨s, c, r⟩ := faults
    cases s
    · cases c
      · cases r
        · simp at hf
        · exact ⟨"rename failed", rfl⟩
      · exact ⟨"close failed", rfl⟩
    · exact ⟨"sync failed", rfl⟩
  · obtain ⟨s, c, r⟩ := faults
    cases s <;> cases c <;> cases r <;>
      simp_all [atomicCommit, fsErase, fsLookup,
        alLookup_erase_ne _ _ _ (Ne.symm htne)]
  · obtain ⟨s, c, r⟩ := faults
    cases s <;> cases c <;> cases r <;>
      simp_all [atomicCommit, fsErase, fsLookup, alLookup_erase_self]
  · simp only [atomicRollback, fsErase, fsLookup]
    rw [alLookup_erase_ne _ _ _ (Ne.symm htne)]
    exact hins data
  · simp [atomicRollback, fsErase, fsLookup, alLookup_erase_self]
  · simp [atomicCommit, noFaults]
  · simp only [atomicCommit, noFaults]
    simp only [fsLookup, fsInsert, fsErase] at htmp ⊢
    rw [htmp]
    simp [alLookup_insert_self]

/-- C4 witness: concrete run with a failing sync step; the destination keeps
its (absent) prior state. -/
theorem atomicWriter_commit_rollback_safety_witness :
    fsLookup (atomicCommit ⟨true, false, false⟩ (awOpenWrite [] "d" 3 [9]).1
      (awOpenWrite [] "d" 3 [9]).2).1 "d" = fsLookup [] "d" :=
  (atomicWriter_commit_rollback_safety [] "d" 3 [9] ⟨true, false, false⟩ (Or.inl rfl)).2.1

/-! ## C5 — idempotent chunk upload: lemma kit -/

/-- Joined paths with different same-length extensions are different paths. -/
theorem joinPath_suffix_ne (a b c d su sv : String) (hlen : su.length = sv.length)
    (hne : su ≠ sv) : joinPath a (b ++ su) ≠ joinPath c (d ++ sv) := by
  unfold joinPath
  rw [← string_append_assoc (a ++ "/") b su, ← string_append_assoc (c ++ "/") d sv]
  exact append_suffix_ne _ _ su sv hlen hne

/-- No metadata record path collides with a chunk artifact path
(`.json` vs `.part`). -/
theorem metaPath_ne_savePath (cfg : AppConfig) (id fileID : String) (index : Nat) :
    metaPath cfg id ≠ chunkSavePath cfg fileID index :=
  joinPath_suffix_ne _ _ _ _ ".json" ".part" rfl (by decide)

/-- No upload lock path collides with a chunk artifact path
(`.lock` vs `.part`). -/
theorem lockPath_ne_savePath (cfg : AppConfig) (a fileID : String) (index : Nat) :
    joinPath cfg.uploadDir (a ++ ".lock") ≠ chunkSavePath cfg fileID index :=
  joinPath_suffix_ne _ _ _ _ ".lock" ".part" rfl (by decide)

/-- `saveTask` never touches a chunk artifact path. -/
theorem saveTask_fs_savePath (cfg : AppConfig) (now : Nat) (sys : Sys) (t : UploadTask)
    (fileID : String) (index : Nat) :
    fsLookup (saveTask cfg now sys t).fs (chunkSavePath cfg fileID index) =
      fsLookup sys.fs (chunkSavePath cfg fileID index) := by
  simp only [saveTask, saveTaskFileFS, fsLookup, fsInsert]
  exact alLookup_insert_ne _ _ _ _ (Ne.symm (metaPath_ne_savePath cfg _ fileID index))

/-- `checkAndUpdateParentTask` only writes metadata records; chunk artifact
paths are untouched. -/
theorem checkParent_fs_savePath (cfg : AppConfig) (now : Nat) (sys : Sys)
    (pid fid2 : String) (index2 : Nat) :
    fsLookup (checkAndUpdateParentTask cfg now sys pid).fs
        (chunkSavePath cfg fid2 index2) =
      fsLookup sys.fs (chunkSavePath cfg fid2 index2) := by
  unfold checkAndUpdateParentTask
  cases hp : alLookup sys.tasks pid with
  | none => rfl
  | some parent =>
      simp only []
      split
      · simp only [saveTaskFileFS, fsLookup, fsInsert]
        exact alLookup_insert_ne _ _ _ _ (Ne.symm (metaPath_ne_savePath cfg _ fid2 index2))
      · rfl

/-- `updateChunk` only writes metadata records; chunk artifact paths are
untouched. -/
theorem updateChunk_fs_savePath (cfg : AppConfig) (now : Nat) (sys : Sys)
    (fileID : String) (idx : Nat) (info : ChunkInfo) (fid2 : String) (index2 : Nat) :
    fsLookup ((updateChunk cfg now sys fileID idx info).1).fs
        (chunkSavePath cfg fid2 index2) =
      fsLookup sys.fs (chunkSavePath cfg fid2 index2) := by
  unfold updateChunk
  cases ht : alLookup sys.tasks fileID with
  | none => rfl
  | some t =>
      simp only [saveTaskFileFS, fsLookup, fsInsert]
      rw [alLookup_insert_ne _ _ _ _ (Ne.symm (metaPath_ne_savePath cfg _ fid2 index2))]
      split
      · exact checkParent_fs_savePath cfg now _ _ fid2 index2
      · rfl

/-- `checkAndUpdateParentTask` may change a task's status but never its chunk
map. -/
theorem checkParent_preserves_chunks (cfg : AppConfig) (now : Nat) (sys : Sys)
    (pid fileID : String) (u : UploadTask)
    (h : alLookup sys.tasks fileID = some u) :
    ∃ u', alLookup (checkAndUpdateParentTask cfg now sys pid).tasks fileID = some u'
      ∧ u'.chunks = u.chunks := by
  unfold checkAndUpdateParentTask
  cases hp : alLookup sys.tasks pid with
  | none => exact ⟨u, h, rfl⟩
  | some parent =>
      simp only []
      split
      · by_cases hpe : pid = fileID
        · subst hpe
          have hpu : parent = u := by
            rw [hp] at h
            exact Option.some.inj h
          subst hpu
          exact ⟨_, alLookup_insert_self _ _ _, rfl⟩
        · refine ⟨u, ?_, rfl⟩
          rw [alLookup_insert_ne _ _ _ _ (fun hh => hpe hh.symm)]
          exact h
      · exact ⟨u, h, rfl⟩

/-- `checkAndUpdateParentTask` writes only the parent's own entry: the record
stored under any other key is untouched. -/
theorem checkParent_tasks_other (cfg : AppConfig) (now : Nat) (sys : Sys)
    (pid fileID : String) (hne : ¬ pid = fileID) :
    alLookup (checkAndUpdateParentTask cfg now sys pid).tasks fileID =
      alLookup sys.tasks fileID := by
  unfold checkAndUpdateParentTask
  cases hp : alLookup sys.tasks pid with
  | none => rfl
  | some parent =>
      simp only []
      split
      · exact alLookup_insert_ne _ _ _ _ (fun hh => hne hh.symm)
      · rfl

/-- After `UpdateChunk` on an existing task, the task's chunk map holds the
given chunk info (with `uploadedAt` stamped). -/
theorem updateChunk_chunk_status (cfg : AppConfig) (now : Nat) (sys : Sys)
    (fileID : String) (idx : Nat) (info : ChunkInfo) (t : UploadTask)
    (ht : alLookup sys.tasks fileID = some t) :
    ∃ u, alLookup ((updateChunk cfg now sys fileID idx info).1).tasks fileID = some u
      ∧ alLookup u.chunks idx = some { info with uploadedAt := now } := by
  simp only [updateChunk, ht]
  split
  · obtain ⟨u', hu', hch⟩ :=
      checkParent_preserves_chunks cfg now
        { sys with tasks := alInsert sys.tasks fileID _ } t.parentTaskID fileID _
        (alLookup_insert_self _ _ _)
    refine ⟨u', by simpa using hu', ?_⟩
    rw [hch]
    exact alLookup_insert_self _ _ _
  · exact ⟨_, by simpa using alLookup_insert_self sys.tasks fileID _,
      alLookup_insert_self _ _ _⟩

/-- The idempotency fast path triggers exactly when an artifact with the right
length (and matching digest, when one was supplied) is present. -/
theorem chunkAlreadyOk_true (fs : FS) (p : String) (data : List Nat) (chunkMD5 : String)
    (b : List Nat) (hex : fsLookup fs p = some b) (hlen : b.length = data.length)
    (hmd5 : chunkMD5 ≠ "" → md5Hex b = chunkMD5) :
    chunkAlreadyOk fs p data chunkMD5 = true := by
  simp only [chunkAlreadyOk, hex]
  by_cases hc : chunkMD5 = ""
  · simp [hlen, hc]
  · simp [hlen, hc, hmd5 hc]

/-- When the fast path does not trigger, no artifact with the right length and
digest was present. -/
theorem chunkAlreadyOk_false (fs : FS) (p : String) (data : List Nat) (chunkMD5 : String)
    (hno : ¬ ∃ b, fsLookup fs p = some b ∧ b.length = data.length ∧
      (chunkMD5 ≠ "" → md5Hex b = chunkMD5)) :
    chunkAlreadyOk fs p data chunkMD5 = false := by
  simp only [chunkAlreadyOk]
  cases hex : fsLookup fs p with
  | none => rfl
  | some content =>
      by_cases hl : content.length = data.length
      · by_cases hc : chunkMD5 = ""
        · exact absurd ⟨content, hex, hl, fun hcc => absurd hc hcc⟩ hno
        · by_cases hm : md5Hex content = chunkMD5
          · exact absurd ⟨content, hex, hl, fun _ => hm⟩ hno
          · simp [hl, hc, hm]
      · simp [hl]

/-- The idempotency fast path of `uploadChunkWithAtomicOperation`: an artifact
of the right length (and matching digest, when one was supplied) short-circuits
to a no-op success. -/
theorem uploadOp_noop (cfg : AppConfig) (nanos : Nat) (fs : FS) (fileID : String)
    (index : Nat) (data : List Nat) (chunkMD5 : String) (b : List Nat)
    (hex : fsLookup fs (chunkSavePath cfg fileID index) = some b)
    (hlen : b.length = data.length)
    (hmd5 : chunkMD5 ≠ "" → md5Hex b = chunkMD5) :
    uploadChunkWithAtomicOperation cfg nanos fs fileID index data chunkMD5 =
      (fs, .ok ()) := by
  have hok := chunkAlreadyOk_true fs (joinPath (joinPath cfg.uploadDir fileID)
    (pad6 index ++ ".part")) data chunkMD5 b hex hlen hmd5
  simp [uploadChunkWithAtomicOperation, hok]

/-- Under a correct client digest, `uploadChunkWithAtomicOperation` succeeds
and leaves an artifact of the incoming length (and matching digest when one
was supplied) at the chunk path. -/
theorem uploadOp_ok (cfg : AppConfig) (nanos : Nat) (fs : FS) (fileID : String)
    (index : Nat) (data : List Nat) (chunkMD5 : String)
    (hmd5 : chunkMD5 = "" ∨ chunkMD5 = md5Hex data) :
    (uploadChunkWithAtomicOperation cfg nanos fs fileID index data chunkMD5).2 = .ok ()
    ∧ ∃ b, fsLookup (uploadChunkWithAtomicOperation cfg nanos fs fileID index data
          chunkMD5).1 (chunkSavePath cfg fileID index) = some b
        ∧ b.length = data.length ∧ (chunkMD5 ≠ "" → md5Hex b = chunkMD5) := by
  have hnoerr : ¬ (chunkMD5 ≠ "" ∧ cfg.enableIntegrityCheck = true ∧
      md5Hex data ≠ chunkMD5) := by
    rcases hmd5 with h | h
    · rintro ⟨hne, -, -⟩
      exact hne h
    · rintro ⟨-, -, hm⟩
      exact hm h.symm
  have hmd5' : chunkMD5 ≠ "" → md5Hex data = chunkMD5 := by
    intro hc
    rcases hmd5 with h | h
    · exact absurd h hc
    · exact h.symm
  by_cases hfast : ∃ b, fsLookup fs (chunkSavePath cfg fileID index) = some b ∧
      b.length = data.length ∧ (chunkMD5 ≠ "" → md5Hex b = chunkMD5)
  · obtain ⟨b, hex, hl, hm⟩ := hfast
    rw [uploadOp_noop cfg nanos fs fileID index data chunkMD5 b hex hl hm]
    exact ⟨rfl, b, hex, hl, hm⟩
  · have hok := chunkAlreadyOk_false fs (joinPath (joinPath cfg.uploadDir fileID)
      (pad6 index ++ ".part")) data chunkMD5 hfast
    simp only [uploadChunkWithAtomicOperation, hok, Bool.false_eq_true, if_false,
      if_neg hnoerr]
    refine ⟨by split <;> rfl, data, ?_, rfl, hmd5'⟩
    show fsLookup _ (chunkSavePath cfg fileID index) = some data
    by_cases hat : cfg.enableAtomicOperations
    · simp only [hat, if_true]
      simp only [newAtomicWriter, atomicWrite, atomicCommit, noFaults, fsLookup,
        fsInsert, fsErase, alLookup_insert_self, Option.getD_some, List.nil_append]
      exact alLookup_insert_self _ _ _
    · simp only [hat, Bool.false_eq_true, if_false]
      exact alLookup_insert_self _ _ _

/-- The upload handler's tail under a correct client digest: success response,
`completed` chunk status, an artifact with the right length and digest —
exactly the pre-existing one when a conforming artifact was already there. -/
theorem recordUploadOutcome_ok (cfg : AppConfig) (now nanos : Nat) (sysB : Sys)
    (acquired : Bool) (fileID : String) (index : Nat) (data : List Nat)
    (chunkMD5 : String)
    (hmd5 : chunkMD5 = "" ∨ chunkMD5 = md5Hex data)
    (htask : ∃ t0, alLookup sysB.tasks fileID = some t0) :
    (recordUploadOutcome cfg now acquired (joinPath cfg.uploadDir (fileID ++ ".lock"))
        fileID index data chunkMD5 sysB
        (uploadChunkWithAtomicOperation cfg nanos sysB.fs fileID index data chunkMD5)).2 =
      .ok index (chunkMD5 ≠ "") data.length
    ∧ (∃ b, fsLookup (recordUploadOutcome cfg now acquired
          (joinPath cfg.uploadDir (fileID ++ ".lock")) fileID index data chunkMD5 sysB
          (uploadChunkWithAtomicOperation cfg nanos sysB.fs fileID index data
            chunkMD5)).1.fs (chunkSavePath cfg fileID index) = some b
        ∧ b.length = data.length ∧ (chunkMD5 ≠ "" → md5Hex b = chunkMD5)
        ∧ (∀ b0, fsLookup sysB.fs (chunkSavePath cfg fileID index) = some b0 →
            b0.length = data.length → (chunkMD5 ≠ "" → md5Hex b0 = chunkMD5) → b = b0))
    ∧ (∃ u, alLookup (recordUploadOutcome cfg now acquired
          (joinPath cfg.uploadDir (fileID ++ ".lock")) fileID index data chunkMD5 sysB
          (uploadChunkWithAtomicOperation cfg nanos sysB.fs fileID index data
            chunkMD5)).1.tasks fileID = some u
        ∧ (alLookup u.chunks index).map (fun ci => ci.status) = some "completed") := by
  obtain ⟨hr2, b, hb, hbl, hbm⟩ :=
    uploadOp_ok cfg nanos sysB.fs fileID index data chunkMD5 hmd5
  obtain ⟨t0, ht0⟩ := htask
  have hlockne : joinPath cfg.uploadDir (fileID ++ ".lock") ≠
      chunkSavePath cfg fileID index := lockPath_ne_savePath cfg fileID fileID index
  unfold recordUploadOutcome
  rw [hr2]
  simp only []
  obtain ⟨u, hu, hcu⟩ := updateChunk_chunk_status cfg now
    { sysB with
      fs := (uploadChunkWithAtomicOperation cfg nanos sysB.fs fileID index data
        chunkMD5).1 }
    fileID index
    { index := index, size := data.length, md5 := chunkMD5, status := "completed",
      uploadedAt := 0, retryCount := 0 } t0 ht0
  refine ⟨by cases acquired <;> trivial, ⟨b, ?_, hbl, hbm, ?_⟩, u, ?_, ?_⟩
  · cases acquired
    · simp only [Bool.false_eq_true, eq_self_iff_true, if_false, if_true]
      rw [updateChunk_fs_savePath]
      exact hb
    · simp only [Bool.false_eq_true, eq_self_iff_true, if_false, if_true]
      show fsLookup (fsErase _ _) _ = some b
      simp only [fsErase, fsLookup]
      rw [alLookup_erase_ne _ _ _ (Ne.symm hlockne)]
      rw [show alLookup = fsLookup from rfl, updateChunk_fs_savePath]
      exact hb
  · intro b0 h0 h0l h0m
    have hno := uploadOp_noop cfg nanos sysB.fs fileID index data chunkMD5 b0 h0 h0l h0m
    have hx : fsLookup (uploadChunkWithAtomicOperation cfg nanos sysB.fs fileID index data
        chunkMD5).1 (chunkSavePath cfg fileID index) = some b0 := by
      rw [hno]
      exact h0
    rw [hb] at hx
    exact Option.some.inj hx
  · cases acquired
    · simpa using hu
    · simpa using hu
  · rw [hcu]
    rfl

/-- One chunk-upload handler call under a correct client digest: it reports
`ok` with `completed` chunk status, leaves an artifact of the incoming length
(with matching digest when one was supplied) at the chunk path, and — when a
conforming artifact was already present — leaves exactly that artifact in
place. -/
theorem uploadHandler_ok (cfg : AppConfig) (now nanos : Nat) (sys : Sys)
    (fileID : String) (index : Nat) (data : List Nat) (chunkMD5 relativePath : String)
    (totalChunks fileSize : Nat) (filename : String)
    (hmd5 : chunkMD5 = "" ∨ chunkMD5 = md5Hex data)
    (hsize : ¬ data.length > cfg.maxChunkSize) :
    (uploadChunkHandler cfg now nanos sys fileID index data chunkMD5 relativePath
        totalChunks fileSize filename).2 = .ok index (chunkMD5 ≠ "") data.length
    ∧ (∃ b, fsLookup (uploadChunkHandler cfg now nanos sys fileID index data chunkMD5
          relativePath totalChunks fileSize filename).1.fs
            (chunkSavePath cfg fileID index) = some b
        ∧ b.length = data.length ∧ (chunkMD5 ≠ "" → md5Hex b = chunkMD5)
        ∧ (∀ b0, fsLookup sys.fs (chunkSavePath cfg fileID index) = some b0 →
            b0.length = data.length → (chunkMD5 ≠ "" → md5Hex b0 = chunkMD5) → b = b0))
    ∧ (∃ u, alLookup (uploadChunkHandler cfg now nanos sys fileID index data chunkMD5
          relativePath totalChunks fileSize filename).1.tasks fileID = some u
        ∧ (alLookup u.chunks index).map (fun ci => ci.status) = some "completed") := by
  have hlockne : joinPath cfg.uploadDir (fileID ++ ".lock") ≠ chunkSavePath cfg fileID index :=
    lockPath_ne_savePath cfg fileID fileID index
  have hinsfs : ∀ v, fsLookup (fsInsert sys.fs (joinPath cfg.uploadDir (fileID ++ ".lock")) v)
      (chunkSavePath cfg fileID index) = fsLookup sys.fs (chunkSavePath cfg fileID index) := by
    intro v
    simp only [fsLookup, fsInsert]
    exact alLookup_insert_ne _ _ _ _ (Ne.symm hlockne)
  unfold uploadChunkHandler
  rw [if_neg hsize]
  by_cases hacq : (fsLookup sys.fs (joinPath cfg.uploadDir (fileID ++ ".lock"))).isNone = true
  all_goals cases hT : alLookup sys.tasks fileID
  all_goals simp only [hacq, hT, if_true, if_false, Bool.false_eq_true,
    eq_self_iff_true]
  -- four branches: (acquired?, task present?); in each, characterize the op's
  -- input state, apply the tail lemma and pull the artifact-preservation
  -- premise back to the original filesystem
  case pos.none =>
    obtain ⟨h1, ⟨b, hb2, hbl, hbm, hpres⟩, h3⟩ :=
      recordUploadOutcome_ok cfg now nanos
        (saveTask cfg now
          { sys with
            fs := fsInsert sys.fs (joinPath cfg.uploadDir (fileID ++ ".lock"))
                    (strBytes "pid") }
          { fileID := fileID, fileName := filename, relativePath := relativePath,
            totalChunks := totalChunks, fileSize := fileSize, fileMD5 := "",
            status := "uploading", createdAt := now, updatedAt := now,
            chunks := [], retryCount := 0, taskType := "", parentTaskID := "",
            folderName := "", subTasks := [], isSubTask := false })
        true fileID index data chunkMD5 hmd5 ⟨_, alLookup_insert_self _ _ _⟩
    refine ⟨h1, ⟨b, hb2, hbl, hbm, fun b0 h0 h0l h0m => hpres b0 ?_ h0l h0m⟩, h3⟩
    rw [saveTask_fs_savePath]
    show fsLookup (fsInsert sys.fs _ _) _ = _
    rw [hinsfs]
    exact h0
  case pos.some t =>
    obtain ⟨h1, ⟨b, hb2, hbl, hbm, hpres⟩, h3⟩ :=
      recordUploadOutcome_ok cfg now nanos
        { sys with
          fs := fsInsert sys.fs (joinPath cfg.uploadDir (fileID ++ ".lock"))
                  (strBytes "pid") }
        true fileID index data chunkMD5 hmd5 ⟨t, hT⟩
    refine ⟨h1, ⟨b, hb2, hbl, hbm, fun b0 h0 h0l h0m => hpres b0 ?_ h0l h0m⟩, h3⟩
    show fsLookup (fsInsert sys.fs _ _) _ = _
    rw [hinsfs]
    exact h0
  case neg.none =>
    obtain ⟨h1, ⟨b, hb2, hbl, hbm, hpres⟩, h3⟩ :=
      recordUploadOutcome_ok cfg now nanos
        (saveTask cfg now sys
          { fileID := fileID, fileName := filename, relativePath := relativePath,
            totalChunks := totalChunks, fileSize := fileSize, fileMD5 := "",
            status := "uploading", createdAt := now, updatedAt := now,
            chunks := [], retryCount := 0, taskType := "", parentTaskID := "",
            folderName := "", subTasks := [], isSubTask := false })
        false fileID index data chunkMD5 hmd5 ⟨_, alLookup_insert_self _ _ _⟩
    refine ⟨h1, ⟨b, hb2, hbl, hbm, fun b0 h0 h0l h0m => hpres b0 ?_ h0l h0m⟩, h3⟩
    rw [saveTask_fs_savePath]
    exact h0
  case neg.some t =>
    obtain ⟨h1, ⟨b, hb2, hbl, hbm, hpres⟩, h3⟩ :=
      recordUploadOutcome_ok cfg now nanos sys false fileID index data chunkMD5 hmd5 ⟨t, hT⟩
    exact ⟨h1, ⟨b, hb2, hbl, hbm, hpres⟩, h3⟩

/-- C5: chunk upload is idempotent.  A pre-existing artifact of the incoming
length whose digest matches the supplied MD5 makes the write a no-op success;
and uploading the same (fileID, index, bytes) twice yields a success response
with `completed` chunk status both times, while the stored artifact after the
second call is byte-for-byte the artifact left by the first call (hence its
size and digest are unchanged). -/
theorem chunkUpload_idempotent (cfg : AppConfig) (now1 nanos1 now2 nanos2 : Nat)
    (sys : Sys) (fileID : String) (index : Nat) (data : List Nat)
    (chunkMD5 relativePath : String) (totalChunks fileSize : Nat) (filename : String)
    (hmd5 : chunkMD5 = "" ∨ chunkMD5 = md5Hex data)
    (hsize : ¬ data.length > cfg.maxChunkSize) :
    (∀ fsx b, fsLookup fsx (chunkSavePath cfg fileID index) = some b →
      b.length = data.length → (chunkMD5 ≠ "" → md5Hex b = chunkMD5) →
      uploadChunkWithAtomicOperation cfg nanos2 fsx fileID index data chunkMD5 =
        (fsx, .ok ()))
    ∧ (uploadChunkHandler cfg now1 nanos1 sys fileID index data chunkMD5 relativePath
        totalChunks fileSize filename).2 = .ok index (chunkMD5 ≠ "") data.length
    ∧ (uploadChunkHandler cfg now2 nanos2
        (uploadChunkHandler cfg now1 nanos1 sys fileID index data chunkMD5 relativePath
          totalChunks fileSize filename).1
        fileID index data chunkMD5 relativePath totalChunks fileSize filename).2 =
        .ok index (chunkMD5 ≠ "") data.length
    ∧ fsLookup (uploadChunkHandler cfg now2 nanos2
        (uploadChunkHandler cfg now1 nanos1 sys fileID index data chunkMD5 relativePath
          totalChunks fileSize filename).1
        fileID index data chunkMD5 relativePath totalChunks fileSize filename).1.fs
        (chunkSavePath cfg fileID index) =
      fsLookup (uploadChunkHandler cfg now1 nanos1 sys fileID index data chunkMD5
        relativePath totalChunks fileSize filename).1.fs (chunkSavePath cfg fileID index)
    ∧ (∃ u, alLookup (uploadChunkHandler cfg now1 nanos1 sys fileID index data chunkMD5
          relativePath totalChunks fileSize filename).1.tasks fileID = some u
        ∧ (alLookup u.chunks index).map (fun ci => ci.status) = some "completed")
    ∧ (∃ u, alLookup (uploadChunkHandler cfg now2 nanos2
          (uploadChunkHandler cfg now1 nanos1 sys fileID index data chunkMD5 relativePath
            totalChunks fileSize filename).1
          fileID index data chunkMD5 relativePath totalChunks fileSize
          filename).1.tasks fileID = some u
        ∧ (alLookup u.chunks index).map (fun ci => ci.status) = some "completed") := by
  obtain ⟨h1r, ⟨b1, hb1, hb1l, hb1m, -⟩, hst1⟩ :=
    uploadHandler_ok cfg now1 nanos1 sys fileID index data chunkMD5 relativePath
      totalChunks fileSize filename hmd5 hsize
  obtain ⟨h2r, ⟨b2, hb2, hb2l, hb2m, hpres2⟩, hst2⟩ :=
    uploadHandler_ok cfg now2 nanos2
      (uploadChunkHandler cfg now1 nanos1 sys fileID index data chunkMD5 relativePath
        totalChunks fileSize filename).1
      fileID index data chunkMD5 relativePath totalChunks fileSize filename hmd5 hsize
  have hb21 : b2 = b1 := hpres2 b1 hb1 hb1l hb1m
  refine ⟨fun fsx b hex hl hm =>
    uploadOp_noop cfg nanos2 fsx fileID index data chunkMD5 b hex hl hm,
    h1r, h2r, ?_, hst1, hst2⟩
  rw [hb2, hb21, hb1]

/-- C5 witness: uploading chunk 0 of `w1` twice; the second call also reports
success. -/
theorem chunkUpload_idempotent_witness :
    (uploadChunkHandler defaultAppConfig 2 8
      (uploadChunkHandler defaultAppConfig 1 7 ⟨[], []⟩ "w1" 0 [65] "" "" 1 1 "w.txt").1
      "w1" 0 [65] "" "" 1 1 "w.txt").2 = .ok 0 (("" : String) ≠ "") 1 :=
  (chunkUpload_idempotent defaultAppConfig 1 7 2 8 ⟨[], []⟩ "w1" 0 [65] "" "" 1 1
    "w.txt" (Or.inl rfl) (by decide)).2.2.1

/-! ## C6 — retry/backoff: attempt count, per-gap delay, immediate return on
non-transient errors -/

/-- `calculateDelay` computes exactly `min(maxDelay, initialDelay · factor^attempt)`. -/
theorem calculateDelay_eq_min (cfg : RetryConfig) (i : Nat) :
    calculateDelay i cfg = min cfg.maxDelay (cfg.initialDelay * cfg.backoffFactor ^ i) := by
  unfold calculateDelay
  by_cases h : i > 0
  · rw [if_pos h]
    rcases le_or_lt (cfg.initialDelay * cfg.backoffFactor ^ i) cfg.maxDelay with hle | hlt
    · rw [if_neg (not_lt.mpr hle), min_eq_right hle]
    · rw [if_pos hlt, min_eq_left hlt.le]
  · have h0 : i = 0 := by omega
    subst h0
    rw [if_neg h, pow_zero, mul_one]
    rcases le_or_lt cfg.initialDelay cfg.maxDelay with hle | hlt
    · rw [if_neg (not_lt.mpr hle), min_eq_right hle]
    · rw [if_pos hlt, min_eq_left hlt.le]

/-- A run whose every attempt fails with a transient-classified error performs
every attempt: `remaining + 1` invocations from attempt `a`, one backoff delay
per gap, ending exhausted with the last error. -/
theorem retryGoAux_all_transient (op : Nat → Option String) (errs : Nat → String)
    (cfg : RetryConfig)
    (hfail : ∀ k, op k = some (errs k)) (hretry : ∀ k, isRetryableError (errs k) = true) :
    ∀ f a, retryGoAux op cfg a f =
      ⟨f + 1, (List.range f).map (fun i => calculateDelay (a + i) cfg),
       .exhausted (errs (a + f))⟩ := by
  intro f
  induction f with
  | zero => intro a; simp [retryGoAux, hfail a, hretry a]
  | succ f ih =>
      intro a
      have hdel : (List.range (f + 1)).map (fun i => calculateDelay (a + i) cfg) =
          calculateDelay a cfg ::
            (List.range f).map (fun i => calculateDelay (a + 1 + i) cfg) := by
        rw [List.range_succ_eq_map, List.map_cons, List.map_map]
        refine congrArg₂ _ (by rw [Nat.add_zero]) ?_
        apply List.map_congr_left
        intro i _
        exact congrArg (fun k => calculateDelay k cfg) (by omega)
      have hres : errs (a + 1 + f) = errs (a + (f + 1)) := congrArg errs (by omega)
      simp only [retryGoAux, hfail a, hretry a, if_true, ih (a + 1), hdel, hres]

/-- C6: an operation that always fails with a transient-classified error is
invoked exactly `maxRetries + 1` times, with the wait between consecutive
attempts `min(maxDelay, initialDelay · backoffFactor^attempt)`, and the run
ends with an error wrapping the last failure; an operation whose error does
not match the transient signatures returns after exactly one invocation with
no waits. -/
theorem retryWithBackoff_bounds (cfg : RetryConfig) (op opBad : Nat → Option String)
    (errs : Nat → String)
    (hfail : ∀ k, op k = some (errs k))
    (hretry : ∀ k, isRetryableError (errs k) = true)
    (eBad : String) (hop : opBad 0 = some eBad) (hbad : isRetryableError eBad = false) :
    (retryGo op cfg).invocations = cfg.maxRetries + 1
    ∧ (retryGo op cfg).delays =
        (List.range cfg.maxRetries).map (fun i => calculateDelay i cfg)
    ∧ (retryGo op cfg).result = .exhausted (errs cfg.maxRetries)
    ∧ (∀ i, calculateDelay i cfg = min cfg.maxDelay (cfg.initialDelay * cfg.backoffFactor ^ i))
    ∧ retryGo opBad cfg = ⟨1, [], .nonRetryable eBad⟩ := by
  have h := retryGoAux_all_transient op errs cfg hfail hretry cfg.maxRetries 0
  refine ⟨?_, ?_, ?_, fun i => calculateDelay_eq_min cfg i, ?_⟩
  · rw [retryGo, h]
  · rw [retryGo, h]
    simp
  · rw [retryGo, h]
    simp
  · cases hr : cfg.maxRetries <;> rw [retryGo, hr] <;> simp [retryGoAux, hop, hbad]

/-- C6 witness: the default configuration (3 retries, 1s initial delay,
factor 2) against an always-"timeout" operation and a non-transient "bad"
operation. -/
theorem retryWithBackoff_bounds_witness :
    (retryGo (fun _ => some "timeout") defaultRetryConfig).invocations = 3 + 1
    ∧ (retryGo (fun _ => some "timeout") defaultRetryConfig).delays =
        (List.range 3).map (fun i => calculateDelay i defaultRetryConfig)
    ∧ (retryGo (fun _ => some "timeout") defaultRetryConfig).result = .exhausted "timeout"
    ∧ (∀ i, calculateDelay i defaultRetryConfig =
        min defaultRetryConfig.maxDelay
          (defaultRetryConfig.initialDelay * defaultRetryConfig.backoffFactor ^ i))
    ∧ retryGo (fun _ => some "bad") defaultRetryConfig = ⟨1, [], .nonRetryable "bad"⟩ :=
  retryWithBackoff_bounds defaultRetryConfig (fun _ => some "timeout")
    (fun _ => some "bad") (fun _ => "timeout") (fun _ => rfl)
    (fun _ => (by decide : isRetryableError "timeout" = true)) "bad" rfl (by decide)

/-! ## C7 — task status vs completed-chunk count -/

/-- C7 counterexample: a one-chunk task whose chunk is completed (status
`completed`) receives an `UpdateChunk` that marks the chunk `failed`.  After
the operation the completed-chunk count is 0 ≠ totalChunks = 1, yet the task
status is still `completed`: `UpdateChunk` never revokes the status, so the
claimed "exactly when" equivalence fails. -/
theorem updateChunk_keeps_stale_completed_status :
    ((alLookup ((updateChunk defaultAppConfig 5 oneChunkDoneSys "t" 0
        { index := 0, size := 1, md5 := "", status := "failed", uploadedAt := 0,
          retryCount := 0 }).1).tasks "t").map
      fun u => (u.status, completedCount u.chunks, u.totalChunks)) =
    some ("completed", 0, 1) := by decide

/-- The one exclusion in the amended C7 theorem is forced by the code: for a
folder task registered as its own parent, `checkAndUpdateParentTask` acts on
the very record `UpdateChunk` just completed (in Go the parent pointer aliases
the task itself), and when another child has failed the re-aggregation
overwrites the freshly set `completed` status with `uploading`, while the
completed-chunk count still equals `totalChunks`. -/
theorem updateChunk_self_parent_folder_overwrites :
    ((alLookup ((updateChunk defaultAppConfig 5 selfParentSys "p" 0
        { index := 0, size := 1, md5 := "", status := "completed", uploadedAt := 0,
          retryCount := 0 }).1).tasks "p").map
      fun u => (u.status, completedCount u.chunks, u.totalChunks)) =
    some ("uploading", 1, 1) := by decide

/-- C7 amended: only the forward direction holds.  After `UpdateChunk` on any
task — sub-task or not — if the resulting completed-chunk count equals
`totalChunks`, the task's status is `completed`.  The sole exclusion is a
sub-task stored as its own folder parent, where the parent re-aggregation
aliases the task itself and can overwrite the fresh status (see
`updateChunk_self_parent_folder_overwrites`); the converse fails, see the
counterexample. -/
theorem updateChunk_completion_forward (cfg : AppConfig) (now : Nat) (sys : Sys)
    (fileID : String) (idx : Nat) (info : ChunkInfo) (t : UploadTask)
    (ht : alLookup sys.tasks fileID = some t)
    (hself : t.isSubTask = true → t.parentTaskID = fileID → t.taskType ≠ "folder")
    (hcount : completedCount (alInsert t.chunks idx { info with uploadedAt := now }) =
      t.totalChunks) :
    ((alLookup ((updateChunk cfg now sys fileID idx info).1).tasks fileID).map
      fun u => u.status) = some "completed" := by
  simp only [updateChunk, ht]
  by_cases hguard : completedCount (alInsert t.chunks idx { info with uploadedAt := now }) =
      t.totalChunks ∧ t.isSubTask = true ∧ t.parentTaskID ≠ ""
  · rw [if_pos hguard]
    by_cases hpid : t.parentTaskID = fileID
    · have hft : t.taskType ≠ "folder" := hself hguard.2.1 hpid
      rw [hpid]
      unfold checkAndUpdateParentTask
      simp only [alLookup_insert_self]
      rw [if_neg hft]
      simp only [alLookup_insert_self, Option.map_some]
      rw [if_pos hcount]
      rfl
    · rw [checkParent_tasks_other cfg now _ t.parentTaskID fileID hpid]
      simp only [alLookup_insert_self, Option.map_some]
      rw [if_pos hcount]
      rfl
  · rw [if_neg hguard]
    simp only [alLookup_insert_self, Option.map_some]
    rw [if_pos hcount]
    rfl

/-- C7 witness: a fresh one-chunk task receives its chunk as completed; the
amended theorem yields status `completed`. -/
theorem updateChunk_completion_forward_witness :
    ((alLookup ((updateChunk defaultAppConfig 5 ⟨[("w", freshOneChunkTask)], []⟩ "w" 0
        { index := 0, size := 1, md5 := "", status := "completed", uploadedAt := 0,
          retryCount := 0 }).1).tasks "w").map
      fun u => u.status) = some "completed" :=
  updateChunk_completion_forward defaultAppConfig 5 ⟨[("w", freshOneChunkTask)], []⟩
    "w" 0 _ freshOneChunkTask (by decide) (by decide) (by decide)

/-! ## C8 — DeleteTask on a missing task, and double deletion -/

/-- C8 counterexample: at the storage layer, deleting a task absent from the
store IS an error (`DeleteTask` returns "任务不存在" when the lookup fails),
contrary to the claim. -/
theorem deleteTask_nonexistent_errors :
    deleteTask defaultAppConfig ⟨[], []⟩ "x" = (⟨[], []⟩, .error "task does not exist") :=
  rfl

/-- After any `deleteTask`, the identifier is gone from the store. -/
theorem deleteTask_lookup_none (cfg : AppConfig) (sys : Sys) (fileID : String) :
    alLookup ((deleteTask cfg sys fileID).1).tasks fileID = none := by
  unfold deleteTask
  cases h : alLookup sys.tasks fileID with
  | none => simpa using h
  | some t => simp [deleteTaskInternal, alLookup_erase_self]

/-- C8 amended: deleting a task that is not in the store returns an error
rather than succeeding silently; nevertheless `DeleteTask` is idempotent in
its effect: a second call returns that error and leaves the state exactly as
the first call left it. -/
theorem deleteTask_idempotent_effect (cfg : AppConfig) (sys : Sys) (fileID : String) :
    deleteTask cfg (deleteTask cfg sys fileID).1 fileID =
      ((deleteTask cfg sys fileID).1, .error "task does not exist")
    ∧ (alLookup sys.tasks fileID = none →
        deleteTask cfg sys fileID = (sys, .error "task does not exist")) := by
  constructor
  · have hn := deleteTask_lookup_none cfg sys fileID
    obtain ⟨sys1, r1, heq⟩ : ∃ s r, deleteTask cfg sys fileID = (s, r) := ⟨_, _, rfl⟩
    rw [heq] at hn ⊢
    simp only [deleteTask, hn]
  · intro h
    simp [deleteTask, h]

/-! ## C1 — the merge completeness gate and the upload/merge directory split -/

/-- C1: the incomplete half of the gate holds (merging a task with 0 of 2
chunks completed yields the structured `incomplete 0 2` signal), but the
success half fails: after the single chunk of `f1` is uploaded and recorded
completed (count = totalChunks = 1), merge does NOT succeed — it reports
chunk `000000.part` missing, because `uploadChunkWithAtomicOperation` stored
the artifact under the raw `fileID` directory while the merge reads the
sanitized directory. -/
theorem merge_fails_after_complete_upload :
    (uploadChunkHandler defaultAppConfig 1 7 ⟨[], []⟩ "f1" 0 [65] "" "" 1 1 "f.txt").2 =
      .ok 0 false 1
    ∧ getUploadedChunks c1AfterUpload.tasks "f1" = [0]
    ∧ ((alLookup c1AfterUpload.tasks "f1").map fun u => u.totalChunks) = some 1
    ∧ fsLookup c1AfterUpload.fs "./upload/f1/000000.part" = some [65]
    ∧ (mergeChunksHandler defaultAppConfig 2 8 c1AfterUpload "f1" "f.txt" "" 1 "").2 =
        .mergeFailed (.missingChunk "000000.part")
    ∧ (mergeChunksHandler defaultAppConfig 2 8 ⟨[("f2", twoChunkEmptyTask)], []⟩
        "f2" "f.txt" "" 2 "").2 = .incomplete 0 2 := by
  refine ⟨by decide, by decide, by decide, by decide, by decide, by decide⟩

/-! ## C2 — chunk artifacts live under the raw fileID, not the sanitized one -/

/-- C2: the chunk artifact for `fileID = "a/b"` (which contains a path
separator) is stored at `./upload/a/b/000000.part` — the raw identifier used
directly as a directory path — while the directory the merge reads,
`./upload/<SanitizeFileID "a/b">/`, holds nothing.  Only the
`%06d.part`-naming half of the claim is honoured. -/
theorem upload_stores_chunks_under_raw_fileID :
    (uploadChunkWithAtomicOperation defaultAppConfig 5 [] "a/b" 0 [66] "").2 = .ok ()
    ∧ fsLookup (uploadChunkWithAtomicOperation defaultAppConfig 5 [] "a/b" 0 [66] "").1
        "./upload/a/b/000000.part" = some [66]
    ∧ SanitizeFileID "a/b" = "a_b_a7e86136"
    ∧ fsLookup (uploadChunkWithAtomicOperation defaultAppConfig 5 [] "a/b" 0 [66] "").1
        (joinPath (joinPath defaultAppConfig.uploadDir (SanitizeFileID "a/b"))
          (pad6 0 ++ ".part")) = none := by
  refine ⟨by decide, by decide, by decide, by decide⟩

/-! ## C3 — order preservation cannot be observed: no merge after uploads
succeeds -/

/-- C3: chunks "B", "C", "A" are uploaded for indices 1, 2, 0 (a complete set
0..2) and all three artifacts are stored; per the claim the merge should
succeed and produce "ABC" (`[65, 66, 67]`), but it fails with a missing-chunk
signal (the artifacts sit under `./upload/g/` while merge scans the sanitized
directory), and no destination file is ever produced. -/
theorem merge_after_out_of_order_upload_fails :
    getUploadedChunks c3AfterThird.tasks "g" = [1, 2, 0]
    ∧ fsLookup c3AfterThird.fs "./upload/g/000000.part" = some [65]
    ∧ fsLookup c3AfterThird.fs "./upload/g/000001.part" = some [66]
    ∧ fsLookup c3AfterThird.fs "./upload/g/000002.part" = some [67]
    ∧ (mergeChunksHandler defaultAppConfig 4 10 c3AfterThird "g" "g.txt" "" 3 "").2 =
        .mergeFailed (.missingChunk "000000.part")
    ∧ fsLookup (mergeChunksHandler defaultAppConfig 4 10 c3AfterThird "g" "g.txt" "" 3 "").1.fs
        "./merged/g.txt" = none := by
  refine ⟨by decide, by decide, by decide, by decide, by decide, by decide⟩

/-- C10 witness: a concrete store, age filter of 3 days, nothing deleted. -/
theorem cleanupTasks_age_filter_deletes_nothing_witness :
    cleanupTasksHandler defaultAppConfig 9
      ⟨[("t", { fileID := "t", fileName := "t", relativePath := "", totalChunks := 1,
                fileSize := 1, fileMD5 := "", status := "failed", createdAt := 0,
                updatedAt := 0, chunks := [], retryCount := 0, taskType := "file",
                parentTaskID := "", folderName := "", subTasks := [], isSubTask := false })],
        []⟩ "" 3 =
    (⟨[("t", { fileID := "t", fileName := "t", relativePath := "", totalChunks := 1,
               fileSize := 1, fileMD5 := "", status := "failed", createdAt := 0,
               updatedAt := 0, chunks := [], retryCount := 0, taskType := "file",
               parentTaskID := "", folderName := "", subTasks := [], isSubTask := false })],
       []⟩, 0) :=
  cleanupTasks_age_filter_deletes_nothing defaultAppConfig 9 _ 3 (by decide)

end GoUploader
